import Mathlib

/-!
Verification development for the `game_prototype` turn-based strategy engine.

The Python sources are shallowly embedded below.  Python `dict`s are embedded
as insertion-ordered association lists (`List (String × α)`) with first-match
lookup; Python mutation is embedded as explicit state passing (the sources
`deepcopy` the input state before mutating, so each action function is a pure
function from the input state to its result); Python exceptions are embedded
with `Except`; calls of `random` are embedded by passing the drawn outcome as
an explicit oracle argument.  Decimal literals of the source are embedded as
exact rationals.
-/

set_option maxHeartbeats 1000000

namespace GamePrototype

/-- Python `dict` lookup `d[k]` / `d.get(k)`: first entry with the key. -/
def pyGet {α : Type} (d : List (String × α)) (k : String) : Option α :=
  (d.find? (fun kv => kv.1 = k)).map (fun kv => kv.2)

/-- Python `dict` assignment `d[k] = v`: overwrite in place if the key is
present (keeping its position), else append a new entry at the end. -/
def pySet {α : Type} : List (String × α) → String → α → List (String × α)
  | [], k, v => [(k, v)]
  | a :: d, k, v => if a.1 = k then (k, v) :: d else a :: pySet d k v

/-- Python `max` over a list of ints (the empty case is guarded at call
sites, since Python `max([])` raises). -/
def pyMaxInt : List Int → Int
  | [] => 0
  | v :: rest => rest.foldl max v

/-- Python truthiness of an optional string (`None` and `""` are falsy). -/
def pyTruthy : Option String → Bool
  | none => false
  | some s => s ≠ ""

/-- Python exceptions raised by the embedded code. -/
inductive PyError : Type
  | attributeError
  | keyError
  | indexError
  | valueError (msg : String)
deriving DecidableEq, Repr

/-- Modelled from the spec: `card_base.GuaCard` is not under `src/`.
The spec describes a Card as an "immutable template — name, one-or-more
associated zone tags it can be played into, optional rarity tag". -/
structure GuaCard : Type where
  name : String
  associated_guas : List String
  rarity : Option String := none
deriving DecidableEq, Repr

/-- `game_state.AvatarName`. -/
inductive AvatarName : Type
  | EMPEROR
  | HERMIT
deriving DecidableEq, Repr

/-- `game_state.Avatar`. -/
structure Avatar : Type where
  name : AvatarName
  description : String
  ability_description : String
deriving DecidableEq, Repr

/-- `game_state.Zone` (the board zones enum, in definition order). -/
inductive Zone : Type
  | DI
  | REN
  | TIAN
  | TAIJI
deriving DecidableEq, Repr, Fintype

/-- The `.value` of each `Zone` member. -/
def Zone.val : Zone → String
  | .DI => "地"
  | .REN => "人"
  | .TIAN => "天"
  | .TAIJI => "太极"

/-- Python `Zone(s)` value lookup: the member whose value equals `s`,
else a `ValueError`. -/
def Zone.ofString (s : String) : Option Zone :=
  if s = "地" then some .DI
  else if s = "人" then some .REN
  else if s = "天" then some .TIAN
  else if s = "太极" then some .TAIJI
  else none

/-- `for zone in Zone`: iteration in definition order. -/
def Zone.all : List Zone := [.DI, .REN, .TIAN, .TAIJI]

/-- `game_state.Modifiers` (a dataclass; these are exactly its declared
fields). -/
structure Modifiers : Type where
  qi_discount : Int := 0
  extra_ap : Int := 0
  extra_influence : Int := 0
  extra_dao_xing_on_task : Int := 0
  cards_to_draw_on_study : Int := 2
  has_free_study : Bool := false
  hand_limit_bonus : Int := 0
  empower_cost_increase : Int := 0
deriving DecidableEq, Repr

/-- Python attribute lookup on a `Modifiers` instance for int-valued
attributes: `getattr` succeeds exactly on the dataclass's declared fields
(the boolean field `has_free_study` is the only non-int field and is listed
separately by `Modifiers.hasAttr`); any other name raises `AttributeError`,
embedded as `none`. -/
def Modifiers.getattrInt (m : Modifiers) : String → Option Int
  | "qi_discount" => some m.qi_discount
  | "extra_ap" => some m.extra_ap
  | "extra_influence" => some m.extra_influence
  | "extra_dao_xing_on_task" => some m.extra_dao_xing_on_task
  | "cards_to_draw_on_study" => some m.cards_to_draw_on_study
  | "hand_limit_bonus" => some m.hand_limit_bonus
  | "empower_cost_increase" => some m.empower_cost_increase
  | _ => none

/-- `yijing_mechanics.WuXing`. -/
inductive WuXing : Type
  | JIN
  | MU
  | SHUI
  | HUO
  | TU
deriving DecidableEq, Repr

/-- `yijing_mechanics.YinYangBalance` (a dataclass of two ints). -/
structure YinYangBalance : Type where
  yin_points : Int := 0
  yang_points : Int := 0
deriving DecidableEq, Repr

/-- `YinYangBalance.balance_ratio`: `(min(yin, yang) * 2) / total`, and
`1.0` when the total is zero.  Python float division is embedded as exact
rational division. -/
def YinYangBalance.balance_ratio (b : YinYangBalance) : ℚ :=
  let total : Int := b.yin_points + b.yang_points
  if total = 0 then 1
  else
    let smaller : Int := min b.yin_points b.yang_points
    ((smaller * 2 : Int) : ℚ) / (total : ℚ)

/-- `game_state.Player` (the `__init__`-assigned fields; `destiny_chart`
holds Tian Shi cards, which no embedded function inspects, so its elements
are embedded by name). -/
structure Player : Type where
  name : String
  avatar : Avatar
  dao_xing : Int := 0
  cheng_yi : Int := 0
  qi : Int := 0
  hand : List GuaCard := []
  position : Zone := .DI
  influence_markers : Int := 15
  current_task_card : Option GuaCard := none
  placed_influence_this_turn : Bool := false
  destiny_chart : List String := []
  yin_yang_balance : YinYangBalance := {}
  wuxing_affinities : List (WuXing × Int) :=
    [(.JIN, 0), (.MU, 0), (.SHUI, 0), (.HUO, 0), (.TU, 0)]
  active_wisdom : List String := []
  transformation_history : List String := []
deriving DecidableEq, Repr

/-- A zone record of `GameBoard.gua_zones`: its `"markers"` dict (player
name → influence count) and its `"controller"` entry (a player name or
`None`). -/
structure ZoneData : Type where
  markers : List (String × Int) := []
  controller : Option String := none
deriving DecidableEq, Repr

/-- The eight gua zone names, in `GameBoard.__init__` insertion order. -/
def guaZoneNames : List String := ["乾", "坤", "震", "巽", "坎", "离", "艮", "兑"]

/-- `game_state.GameBoard`. -/
structure GameBoard : Type where
  base_limit : Nat
  gua_zones : List (String × ZoneData)
  player_positions : List (String × Zone)
deriving DecidableEq, Repr

/-- `GameBoard.__init__(num_players)`: the capacity is 5 for 2 players,
6 for 3 players, and 7 otherwise; the eight gua zones start empty. -/
def GameBoard.init (num_players : Nat) : GameBoard :=
  let limit := if num_players = 2 then 5 else if num_players = 3 then 6 else 7
  { base_limit := limit
    gua_zones := guaZoneNames.map (fun n => (n, {}))
    player_positions := [] }

/-- `game_state.GameState` (the `current_tian_shi` card is embedded by
name, as no embedded function inspects it). -/
structure GameState : Type where
  board : GameBoard
  players : List Player
  current_player_index : Nat := 0
  turn : Nat := 1
  current_tian_shi : Option String := none
deriving DecidableEq, Repr

/-- `GameState.__init__(players)`: builds the board from the player count
and records each player's starting position. -/
def GameState.init (players : List Player) : GameState :=
  { board :=
      { GameBoard.init players.length with
        player_positions := players.foldl
          (fun d p => pySet d p.name p.position) [] }
    players := players }

/-- `GameState.get_current_player()`; Python list indexing raises
`IndexError` out of range, embedded as `none`. -/
def GameState.get_current_player (gs : GameState) : Option Player :=
  gs.players[gs.current_player_index]?

/-- Replace the current player (the embedding of mutating the object
returned by `get_current_player`). -/
def GameState.setCurrentPlayer (gs : GameState) (p : Player) : GameState :=
  { gs with players := gs.players.set gs.current_player_index p }

/-- The controller computation at the heart of `actions.check_zone_control`:
from the board's `base_limit` and a zone's markers, the controller the code
assigns.  `players_with_max` keeps the markers' insertion order, and
`leaders[0]` is taken only under the `len == 1` guard. -/
def evalController (base_limit : Nat) (markers : List (String × Int)) :
    Option String :=
  if markers = [] then none
  else
    let max_influence := pyMaxInt (markers.map (fun kv => kv.2))
    let players_with_max :=
      (markers.filter (fun kv => kv.2 = max_influence)).map (fun kv => kv.1)
    let control_threshold : Int := (base_limit : Int) / 2 + 1
    match players_with_max with
    | [p] => if max_influence ≥ control_threshold then some p else none
    | _ => none

/-- `actions.check_zone_control(gs, zone_name)`: re-evaluates the named
zone's controller in place.  `gs.board.gua_zones[zone_name]` raises
`KeyError` when the name is not a zone, embedded as `Except.error`. -/
def check_zone_control (gs : GameState) (zone_name : String) :
    Except PyError GameState :=
  match pyGet gs.board.gua_zones zone_name with
  | none => .error .keyError
  | some zone_data =>
    let zone_data' :=
      { zone_data with
        controller := evalController gs.board.base_limit zone_data.markers }
    .ok { gs with board :=
          { gs.board with
            gua_zones := pySet gs.board.gua_zones zone_name zone_data' } }

/-- `actions.play_card(game_state, card_index, zone_choice, mods)`.
The source deepcopies the input state and mutates only the copy, so the
caller's state is the unchanged input value; the achievement-tracking call
at the end touches only the external (out-of-engine-scope) singleton.
`Except.ok none` is Python `return None` (rejection); `Except.error` is an
uncaught exception. -/
def play_card (game_state : GameState) (card_index : Int)
    (zone_choice : String) (mods : Modifiers) :
    Except PyError (Option GameState) := do
  let new_state := game_state
  match new_state.get_current_player with
  | none => .error .indexError
  | some player =>
    if ¬ (0 ≤ card_index ∧ card_index < (player.hand.length : Int)) then
      .ok none
    else
      match player.hand[card_index.toNat]? with
      | none => .error .indexError
      | some card_to_play =>
        -- `hand.pop(card_index)` has already mutated the copied state here;
        -- the copy is discarded on the rejection path below.
        let player := { player with hand := player.hand.eraseIdx card_index.toNat }
        if zone_choice ∉ card_to_play.associated_guas then
          .ok none
        else
          let player := { player with current_task_card := some card_to_play }
          let influence_to_place : Int := 1 + mods.extra_influence
          match pyGet new_state.board.gua_zones zone_choice with
          | none => .error .keyError
          | some zone_data =>
            let zone_markers := zone_data.markers
            let zone_markers := pySet zone_markers player.name
              ((pyGet zone_markers player.name).getD 0 + influence_to_place)
            let player := { player with placed_influence_this_turn := true }
            let new_state := new_state.setCurrentPlayer player
            let new_state := { new_state with board :=
              { new_state.board with gua_zones :=
                  (pySet new_state.board.gua_zones zone_choice
                    { zone_data with markers := zone_markers }) } }
            match check_zone_control new_state zone_choice with
            | .error e => .error e
            | .ok new_state => .ok (some new_state)

/-- `actions.move(game_state, target_zone_str, mods)`.  The source
deepcopies the input state and mutates only the copy. -/
def move (game_state : GameState) (target_zone_str : String)
    (mods : Modifiers) : Except PyError (Option GameState) :=
  let new_state := game_state
  match new_state.get_current_player with
  | none => .error .indexError
  | some player =>
    -- `Zone(target_zone_str)`; `ValueError` is caught and returns `None`.
    match Zone.ofString target_zone_str with
    | none => .ok none
    | some target_zone =>
      let qi_cost : Int := max (1 - mods.qi_discount) 0
      if player.qi < qi_cost then
        .ok none
      else
        let player := { player with position := target_zone, qi := player.qi - qi_cost }
        let new_state := new_state.setCurrentPlayer player
        let new_state := { new_state with board :=
          { new_state.board with player_positions :=
              (pySet new_state.board.player_positions player.name target_zone) } }
        .ok (some new_state)

/-- `actions.study(game_state, mods)`.  Its first statement evaluates
`2 + mods.extra_card_draw`; `Modifiers` declares no `extra_card_draw`
field, so the attribute lookup governs the whole call.  The draws of
`random.choice(GAME_DECK)` are passed as the oracle `draws`; the wisdom
and achievement singleton calls are external to the engine (spec §1 scopes
them out) and touch no engine state. -/
def study (game_state : GameState) (mods : Modifiers)
    (draws : Nat → GuaCard) : Except PyError GameState := do
  let new_state := game_state
  match new_state.get_current_player with
  | none => .error .indexError
  | some current_player =>
    match mods.getattrInt "extra_card_draw" with
    | none => .error .attributeError
    | some extra_card_draw =>
      let cards_to_draw : Int := 2 + extra_card_draw
      let cards_to_draw :=
        if current_player.position = Zone.REN then cards_to_draw + 1
        else cards_to_draw
      let drawn := (List.range cards_to_draw.toNat).map draws
      let current_player := { current_player with
        hand := current_player.hand ++ drawn }
      let current_player :=
        if current_player.hand.length ≥ 5 then
          { current_player with dao_xing := current_player.dao_xing + 1 }
        else current_player
      .ok (new_state.setCurrentPlayer current_player)

/-- The `"action"` value of a catalog entry: either a bare string tag or a
Python function object, embedded by the function's name. -/
inductive ActionVal : Type
  | tag (s : String)
  | fn (name : String)
deriving DecidableEq, Repr

/-- An argument in a catalog entry's `"args"` list. -/
inductive ArgV : Type
  | int (n : Int)
  | str (s : String)
deriving DecidableEq, Repr

/-- One action descriptor of `actions.get_valid_actions`. -/
structure ActionEntry : Type where
  action : ActionVal
  cost : Nat
  description : String
  args : List ArgV
deriving DecidableEq, Repr

/-- The descriptors inserted by
`actions.get_valid_actions(game_state, player, ap, mods, **flags)`, in
insertion order (`game_state`, `mods` and `flags` are not read by the
body). -/
def getValidActionEntries (game_state : GameState) (player : Player)
    (ap : Int) (mods : Modifiers) : List ActionEntry :=
  let _ := game_state
  let _ := mods
  [({ action := .tag "pass", cost := 0, description := "Pass turn", args := [] }
       : ActionEntry)]
    ++ (player.hand.enum.flatMap fun ic =>
        if ap ≥ 1 then
          ic.2.associated_guas.map fun gua =>
            { action := .fn "enhanced_play_card", cost := 1
              description := "Play " ++ ic.2.name ++ " to " ++ gua ++ " [阴阳]"
              args := [.int ic.1, .str gua] }
        else [])
    ++ (if ap ≥ 1 ∧ player.qi ≥ 1 then
          (Zone.all.filter fun zone => zone ≠ player.position).map fun zone =>
            { action := .fn "move", cost := 1
              description := "Move to " ++ zone.val
              args := [.str zone.val] }
        else [])
    ++ (if ap ≥ 1 then
          [{ action := .fn "enhanced_study", cost := 1
             description := "Study (draw cards, gain wisdom) [书]", args := [] }]
        else [])
    ++ (if ap ≥ 1 then
          [{ action := .fn "enhanced_meditate", cost := 1
             description := "Meditate (cultivate Qi, balance Yin-Yang) 🧘"
             args := [] }]
        else [])
    ++ (if ap ≥ 1 ∧ player.cheng_yi ≥ 3 then
          [{ action := .tag "biangua_prompt", cost := 1
             description := "Biangua (transform hexagram) 🔄", args := [] }]
        else [])
    ++ (if ap ≥ 1 ∧ player.qi ≥ 3 then
          [{ action := .fn "divine_fortune", cost := 1
             description := "Divine Fortune (占卜运势) 🔮", args := [] }]
        else [])
    ++ [{ action := .tag "wisdom_progress", cost := 0
          description := "View Wisdom Progress (查看智慧收集进度) [卷]", args := [] },
        { action := .tag "tutorial_menu", cost := 0
          description := "Tutorial Menu (教学菜单) 🎓", args := [] },
        { action := .tag "learning_progress", cost := 0
          description := "Learning Progress (学习进度) [统计]", args := [] },
        { action := .tag "achievement_progress", cost := 0
          description := "Achievement Progress (成就进度) 🏆", args := [] },
        { action := .tag "achievement_list", cost := 0
          description := "Achievement List (成就列表) [目标]", args := [] },
        { action := .tag "view_enhanced_cards", cost := 0
          description := "View Enhanced Cards (查看增强卡牌) [卡牌]", args := [] }]
    ++ (if ap ≥ 1 then
          [{ action := .tag "use_enhanced_card", cost := 1
             description := "Use Enhanced Card (使用增强卡牌) [闪]", args := [] }]
        else [])
    ++ (if ap ≥ 1 ∧ player.dao_xing ≥ 2 then
          [{ action := .tag "consult_yijing_prompt", cost := 1
             description := "Consult Yijing (咨询易经) [卷]", args := [] }]
        else [])

/-- `actions.get_valid_actions`: the `{action_id: descriptor}` dict,
embedded as the descriptor list paired with its ids (the id counter starts
at 1 and increments by one per inserted entry). -/
def get_valid_actions (game_state : GameState) (player : Player) (ap : Int)
    (mods : Modifiers) : List (Nat × ActionEntry) :=
  (getValidActionEntries game_state player ap mods).enum.map
    fun ie => (ie.1 + 1, ie.2)

/-- Modelled from the spec: `game_data.EMPEROR_AVATAR` is not under
`src/`; the spec calls avatars "cosmetic". -/
def EMPEROR_AVATAR : Avatar :=
  { name := .EMPEROR, description := "帝王", ability_description := "帝王" }

/-- Modelled from the spec: `game_data.HERMIT_AVATAR` is not under
`src/`. -/
def HERMIT_AVATAR : Avatar :=
  { name := .HERMIT, description := "隐士", ability_description := "隐士" }

/-- `main.setup_game`'s avatar list. -/
def available_avatars : List Avatar := [EMPEROR_AVATAR, HERMIT_AVATAR]

/-- `for _ in range(n): if deck: hand.append(deck.pop())` — pop up to `n`
cards off the end of the deck, in pop order. -/
def popDraw : Nat → List GuaCard → List GuaCard × List GuaCard
  | 0, deck => ([], deck)
  | n + 1, deck =>
    match deck.getLast? with
    | none => ([], deck)
    | some card =>
      let (cards, rest) := popDraw n deck.dropLast
      (card :: cards, rest)

/-- The dealing loop of `main.setup_game`: each player in order draws 4
cards off the end of the deck and gets the starting resources
`qi = 8`, `dao_xing = 1`, `cheng_yi = 2`. -/
def dealLoop : List Player → List GuaCard → List Player × List GuaCard
  | [], deck => ([], deck)
  | player :: rest, deck =>
    let (cards, deck) := popDraw 4 deck
    let player := { player with
      hand := player.hand ++ cards, qi := 8, dao_xing := 1, cheng_yi := 2 }
    let (ps, deck) := dealLoop rest deck
    (player :: ps, deck)

/-- `main.setup_game(num_players)`: validates `1 <= num_players <= 8`
(else `ValueError`), builds the players (avatars cycling through
`available_avatars`), the state and board, then deals hands and starting
resources.  `GAME_DECK` lives in `game_data` (not under `src/`) and is
shuffled with `random.shuffle`, so the already-shuffled deck is passed as
the `shuffled_deck` argument. -/
def setup_game (num_players : Int) (shuffled_deck : List GuaCard) :
    Except String GameState :=
  if ¬ (1 ≤ num_players ∧ num_players ≤ 8) then
    .error "游戏支持1-8人，请输入正确的人数"
  else
    let players := (List.range num_players.toNat).map fun i =>
      let avatar := available_avatars.getD (i % available_avatars.length)
        EMPEROR_AVATAR
      let player_name :=
        if num_players > 1 then "玩家" ++ toString (i + 1) else "修行者"
      ({ name := player_name, avatar := avatar } : Player)
    let game_state := GameState.init players
    let (players', _) := dealLoop game_state.players shuffled_deck
    .ok { game_state with players := players' }

/-- The `risk_modifiers` dict of
`yijing_mechanics.BianguaTransformation._calculate_success_rate`. -/
def risk_modifiers : List (String × ℚ) :=
  [("low", 0.2), ("medium", 0.0), ("high", -0.3)]

/-- The `risk_level` / cost fields of
`yijing_mechanics.BianguaTransformation` that
`_calculate_success_rate` can read. -/
structure BianguaTransformation : Type where
  original_gua : String
  transformed_gua : String
  trigger_condition : String
  effect_description : String
  cost_qi : Int := 0
  cost_dao_xing : Int := 0
  reward_multiplier : ℚ := 1.0
  risk_level : String := "low"
deriving DecidableEq, Repr

/-- `BianguaTransformation._calculate_success_rate(game_context)`: the
context's `'player'` entry is embedded as the `player` option. -/
def BianguaTransformation.calculate_success_rate
    (t : BianguaTransformation) (player : Option Player) : ℚ :=
  let base_rate : ℚ := 0.7
  let dao_xing_bonus : ℚ :=
    match player with
    | some p => min 0.2 ((p.dao_xing : ℚ) * 0.01)
    | none => 0
  let balance_bonus : ℚ :=
    match player with
    | some p =>
      let balance_ratio := p.yin_yang_balance.balance_ratio
      if 0.4 ≤ balance_ratio ∧ balance_ratio ≤ 0.6 then 0.1 else 0
    | none => 0
  let final_rate := base_rate + (pyGet risk_modifiers t.risk_level).getD 0
    + dao_xing_bonus + balance_bonus
  max 0.1 (min 0.95 final_rate)

/-- The spec's risk levels (§4.6 restricts to low/medium/high). -/
inductive RiskLevel : Type
  | low
  | medium
  | high
deriving DecidableEq, Repr

/-- The string the code uses for each risk level. -/
def RiskLevel.toPy : RiskLevel → String
  | .low => "low"
  | .medium => "medium"
  | .high => "high"

/-- Stated from the spec's words (§4.6): success probability =
`0.7 + risk_modifier + min(0.2, 0.01 * insight) +
(0.1 if balance_ratio in [0.4, 0.6] else 0)`, clamped to `[0.10, 0.95]`. -/
def specSuccessRate (risk : RiskLevel) (insight : ℕ) (r : ℚ) : ℚ :=
  let riskMod : ℚ :=
    match risk with
    | .low => 0.2
    | .medium => 0
    | .high => -0.3
  max 0.10 (min 0.95
    (0.7 + riskMod + min 0.2 (0.01 * (insight : ℚ))
      + (if 0.4 ≤ r ∧ r ≤ 0.6 then 0.1 else 0)))

/-- The `(fortune_types, weights)` tiers of
`yijing_mechanics.ZhanBuSystem.divine_fortune`, selected by the player's
`dao_xing`. -/
def fortuneTiers (player_dao_xing : Int) : List String × List Nat :=
  if player_dao_xing ≤ 3 then
    (["平", "小吉", "中吉"], [3, 2, 1])
  else if player_dao_xing ≤ 7 then
    (["小凶", "平", "小吉", "中吉", "大吉"], [1, 2, 3, 3, 1])
  else
    (["大凶", "中凶", "小凶", "平", "小吉", "中吉", "大吉"], [1, 1, 2, 3, 3, 2, 1])

/-- The sampling pool of `random.choices(fortune_types, weights=weights)`:
each outcome repeated its weight many times, so that a uniform index draw
over the pool is that weighted draw (in particular, the possible outcomes
are exactly the pool's elements). -/
def weightedPool : List String → List Nat → List String
  | f :: fs, w :: ws => List.replicate w f ++ weightedPool fs ws
  | _, _ => []

/-- The fortune drawn by `ZhanBuSystem.divine_fortune(player_dao_xing)`,
with the random draw passed as the uniform index `pick`. -/
def divine_fortune_outcome (player_dao_xing : Int) (pick : Nat) : String :=
  let (fortune_types, weights) := fortuneTiers player_dao_xing
  let pool := weightedPool fortune_types weights
  pool.getD (pick % pool.length) ""

/-- `sum(1 for data in gua_zones.values() if data.get("controller") ==
player.name)` in `complete_enhanced_game`. -/
def controlledZoneCount (gs : GameState) (player_name : String) : Nat :=
  (gs.board.gua_zones.filter fun z => z.2.controller = some player_name).length

/-- Python `max(lst, key=key)`: the first element attaining the maximum
key (`max` keeps the current best on ties).  `max([])` raises, embedded as
`none`. -/
def pyMaxBy (lst : List Player) (key : Player → Nat) : Option Player :=
  match lst with
  | [] => none
  | p :: ps => some (ps.foldl (fun best x => if key best < key x then x else best) p)

/-- The per-player victory test of the loop in
`CompleteEnhancedGame._check_victory_conditions`: control of more than
half the zones, or `qi >= 20 and dao_xing >= 15 and cheng_yi >= 15`. -/
def instant_victory (gs : GameState) (player : Player) : Bool :=
  decide (controlledZoneCount gs player.name >
      gs.board.gua_zones.length / 2) ||
    (decide (player.qi ≥ 20) && decide (player.dao_xing ≥ 15) &&
      decide (player.cheng_yi ≥ 15))

/-- `CompleteEnhancedGame._check_victory_conditions`: returns the winner
it stores (the boolean result is `isSome`).  The first player in list
order meeting `instant_victory` wins at once; otherwise, past turn 50 the
winner is `max(players, key=zones controlled)`. -/
def check_victory_conditions (gs : GameState) : Option Player :=
  match gs.players.find? (fun player => instant_victory gs player) with
  | some player => some player
  | none =>
    if gs.turn > 50 then
      pyMaxBy gs.players (fun p => controlledZoneCount gs p.name)
    else
      none

/-- The direct zone-claim branch of `CompleteEnhancedGame._handle_ai_turn`
(`elif action.startswith("claim:")`) and the identical branch of
`_run_ai_vs_ai_battle`: if the named zone exists and its controller is
falsy (`not ...get("controller")`), assign the acting player as
controller; otherwise leave the board alone. -/
def handle_ai_claim (zones : List (String × ZoneData))
    (zone_name player_name : String) : List (String × ZoneData) :=
  match pyGet zones zone_name with
  | some zone_data =>
    if ¬ pyTruthy zone_data.controller then
      pySet zones zone_name { zone_data with controller := some player_name }
    else zones
  | none => zones

/-- The zone-claim branch of `CompleteEnhancedGame._run_ai_vs_ai_battle`
(`elif action.startswith("claim:")`): the same guard written as one
condition — the zone must exist and its controller be falsy. -/
def ai_vs_ai_claim (zones : List (String × ZoneData))
    (zone_name player_name : String) : List (String × ZoneData) :=
  match pyGet zones zone_name with
  | some zone_data =>
    if pyTruthy zone_data.controller then zones
    else pySet zones zone_name { zone_data with controller := some player_name }
  | none => zones

/-- The oracle for the interactive and random draws inside
`_handle_explore`: the parsed menu input (`none` embeds a `ValueError`
from `int(...)`), the `random.choice` draw as an index, and the outcome of
`random.random() < success_rate`. -/
structure ExploreOracle : Type where
  choice_input : Option Int
  rand_index : Nat
  success_roll : Bool
deriving DecidableEq, Repr

/-- The target selection of `_handle_explore`: the single available zone
when only one is free, else the menu choice when it parses and is in
range, else the `random.choice` fallback (embedded as an index draw). -/
def exploreTarget (available_zones : List String)
    (oracle : ExploreOracle) : String :=
  if available_zones.length = 1 then
    available_zones.getD 0 ""
  else
    match oracle.choice_input with
    | some c =>
      let choice := c - 1
      if 0 ≤ choice ∧ choice < (available_zones.length : Int) then
        available_zones.getD choice.toNat ""
      else
        available_zones.getD (oracle.rand_index % available_zones.length) ""
    | none =>
      available_zones.getD (oracle.rand_index % available_zones.length) ""

/-- `CompleteEnhancedGame._handle_explore(player)`: picks a target among
the zones with a falsy controller and, on a successful roll, assigns the
player as its controller; on failure grants `dao_xing += 1`; with no
available zone grants `qi += 1`.  Returns the mutated
`(gua_zones, player)`. -/
def handle_explore (zones : List (String × ZoneData)) (player : Player)
    (oracle : ExploreOracle) : List (String × ZoneData) × Player :=
  let available_zones :=
    (zones.filter fun z => ¬ pyTruthy z.2.controller).map fun z => z.1
  if available_zones = [] then
    (zones, { player with qi := player.qi + 1 })
  else
    let target_zone := exploreTarget available_zones oracle
    let _success_rate : ℚ :=
      min (0.7 + (player.dao_xing : ℚ) * 0.05) 0.95
    if oracle.success_roll then
      match pyGet zones target_zone with
      | some zone_data =>
        (pySet zones target_zone { zone_data with controller := some player.name },
          player)
      | none => (zones, player)
    else
      (zones, { player with dao_xing := player.dao_xing + 1 })

/-! ### Spec-side predicates and concrete example inputs -/

/-- The spec's control condition for player `p` in a zone: `p` holds the
unique maximum influence `m` among the zone's markers and
`m ≥ floor(capacity/2) + 1`. -/
def UniqueLeaderAtThreshold (base_limit : Nat) (markers : List (String × Int))
    (p : String) : Prop :=
  ∃ m : Int, (p, m) ∈ markers ∧ ((base_limit : Int) / 2 + 1) ≤ m ∧
    ∀ q v, (q, v) ∈ markers → v ≤ m ∧ (v = m → q = p)

/-- `True` exactly on an accepted action result (`Except.ok (some _)`). -/
def isAccepted (r : Except PyError (Option GameState)) : Bool :=
  match r with
  | .ok (some _) => true
  | _ => false

/-- The claim's reading of the action catalog's move gate: move entries
for every non-current location are present iff `ap ≥ 1` and the player's
energy covers the movement cost `max(1 - qi_discount, 0)`. -/
def MoveEntriesIffDiscountedCost (gs : GameState) (player : Player) (ap : Int)
    (mods : Modifiers) : Prop :=
  (∀ zone : Zone, zone ≠ player.position →
      ∃ e ∈ get_valid_actions gs player ap mods,
        e.2.action = .fn "move" ∧ e.2.args = [.str zone.val]) ↔
    (1 ≤ ap ∧ max (1 - mods.qi_discount) 0 ≤ player.qi)

/-- The claim's reading of the move resolver: acceptance iff the target is
a valid location, distinct from the current position, and affordable. -/
def MoveAcceptIffDistinct (gs : GameState) (pl : Player) (t : String)
    (mods : Modifiers) : Prop :=
  isAccepted (move gs t mods) = true ↔
    ((Zone.ofString t).isSome ∧ Zone.ofString t ≠ some pl.position ∧
      max (1 - mods.qi_discount) 0 ≤ pl.qi)

/-- The spec's "summed resources" tiebreak quantity of a player. -/
def resourceSum (p : Player) : Int := p.qi + p.dao_xing + p.cheng_yi

/-- The full effect of an accepted `move` on the input state. -/
def MoveEffect (gs : GameState) (t : String) (mods : Modifiers)
    (gs' : GameState) : Prop :=
  ∃ pl tz, gs.get_current_player = some pl ∧ Zone.ofString t = some tz ∧
    gs'.players = gs.players.set gs.current_player_index
      { pl with position := tz, qi := pl.qi - max (1 - mods.qi_discount) 0 } ∧
    gs'.board.player_positions =
      pySet gs.board.player_positions pl.name tz ∧
    gs'.board.gua_zones = gs.board.gua_zones ∧
    gs'.board.base_limit = gs.board.base_limit ∧
    gs'.turn = gs.turn ∧
    gs'.current_player_index = gs.current_player_index ∧
    gs'.current_tian_shi = gs.current_tian_shi

/-- The full effect of an accepted `play_card` on the input state: the
card leaves the hand and becomes the task card, the flag is set,
`1 + extra_influence` markers are added for the player in the chosen zone,
and that zone's controller is re-evaluated; nothing else changes. -/
def PlayCardEffect (gs : GameState) (card_index : Int) (zone_choice : String)
    (mods : Modifiers) (gs' : GameState) : Prop :=
  ∃ pl card zd, gs.get_current_player = some pl ∧
    pl.hand[card_index.toNat]? = some card ∧
    zone_choice ∈ card.associated_guas ∧
    pyGet gs.board.gua_zones zone_choice = some zd ∧
    (let newMarkers := pySet zd.markers pl.name
        ((pyGet zd.markers pl.name).getD 0 + (1 + mods.extra_influence))
     gs'.players = gs.players.set gs.current_player_index
        { pl with hand := pl.hand.eraseIdx card_index.toNat,
                  current_task_card := some card,
                  placed_influence_this_turn := true } ∧
      gs'.board.gua_zones = pySet gs.board.gua_zones zone_choice
        { markers := newMarkers,
          controller := evalController gs.board.base_limit newMarkers } ∧
      gs'.board.player_positions = gs.board.player_positions ∧
      gs'.board.base_limit = gs.board.base_limit ∧
      gs'.turn = gs.turn ∧
      gs'.current_player_index = gs.current_player_index ∧
      gs'.current_tian_shi = gs.current_tian_shi)

/-- Example card. -/
def exCard : GuaCard := { name := "乾卦", associated_guas := ["乾"] }

/-- Example player A. -/
def exPlayerA : Player :=
  { name := "A", avatar := EMPEROR_AVATAR, qi := 5, hand := [exCard] }

/-- Example player B. -/
def exPlayerB : Player :=
  { name := "B", avatar := EMPEROR_AVATAR, qi := 5, hand := [exCard] }

/-- Example two-player state (capacity 5). -/
def exState : GameState := GameState.init [exPlayerA, exPlayerB]

/-- Example state with zone 乾 tied at 3 markers each (and a stale
controller, so re-evaluation is observable). -/
def exTieState : GameState :=
  { exState with board := { exState.board with gua_zones :=
      (pySet exState.board.gua_zones "乾"
        { markers := [("A", 3), ("B", 3)], controller := some "A" }) } }

/-- The state produced by re-evaluating 乾 on `exTieState`. -/
def exTieOut : GameState :=
  ((check_zone_control exTieState "乾").toOption).getD exTieState

/-- The 乾 zone record of `exTieOut`. -/
def exTieZd : ZoneData :=
  { markers := [("A", 3), ("B", 3)], controller := none }

/-- The state produced by playing `exCard` from `exState` into 乾. -/
def exPlayOut : GameState :=
  (((play_card exState 0 "乾" {}).toOption).join).getD exState

/-- The 乾 zone record of `exPlayOut`. -/
def exPlayZd : ZoneData := { markers := [("A", 1)], controller := none }

/-- Example transformation with low risk. -/
def exBiangua : BianguaTransformation :=
  { original_gua := "乾为天", transformed_gua := "坤为地",
    trigger_condition := "道行充足", effect_description := "转化" }

/-- Example player with insight 9 and a balanced yin/yang ratio of 1/2. -/
def exPlayer9 : Player :=
  { name := "九", avatar := HERMIT_AVATAR, dao_xing := 9,
    yin_yang_balance := { yin_points := 1, yang_points := 3 } }

/-- Example player with no energy and an empty hand. -/
def exPoorPlayer : Player :=
  { name := "C", avatar := EMPEROR_AVATAR, qi := 0, hand := [] }

/-- Example victory-check state: turn 51, no zones controlled, the second
player holding strictly more total resources than the first. -/
def exVicP1 : Player := { name := "P1", avatar := EMPEROR_AVATAR, qi := 0 }

/-- Second player of the victory-check example. -/
def exVicP2 : Player := { name := "P2", avatar := HERMIT_AVATAR, qi := 5 }

/-- The victory-check example state. -/
def exVicState : GameState :=
  { GameState.init [exVicP1, exVicP2] with turn := 51 }

/-- Example 8-card deck for `setup_game`. -/
def exDeck : List GuaCard :=
  (List.range 8).map (fun i => { name := toString i, associated_guas := ["乾"] })

/-- The state built by `setup_game 2 exDeck`. -/
def exSetupOut : GameState :=
  ((setup_game 2 exDeck).toOption).getD (GameState.init [])

/-- Example zone table with one controlled and one free zone. -/
def exZones : List (String × ZoneData) :=
  [("乾", { markers := [], controller := some "A" }),
   ("坤", { markers := [], controller := none })]

/-! ## Theorems -/

/-! ### Association-list (Python dict) lemmas -/

theorem pyGet_cons {α : Type} (a : String × α) (d : List (String × α))
    (k : String) :
    pyGet (a :: d) k = if a.1 = k then some a.2 else pyGet d k := by
  by_cases h : a.1 = k <;> simp [pyGet, List.find?_cons, h]

theorem pyGet_pySet_self {α : Type} (d : List (String × α)) (k : String)
    (v : α) : pyGet (pySet d k v) k = some v := by
  induction d with
  | nil => simp [pySet, pyGet, List.find?]
  | cons a d ih =>
    rw [pySet]
    by_cases h : a.1 = k
    · simp [h, pyGet_cons]
    · simp [h, pyGet_cons, ih]

theorem pyGet_pySet_ne {α : Type} (d : List (String × α)) (k k' : String)
    (v : α) (hne : k ≠ k') : pyGet (pySet d k v) k' = pyGet d k' := by
  induction d with
  | nil => simp [pySet, pyGet, List.find?, hne]
  | cons a d ih =>
    rw [pySet]
    by_cases h : a.1 = k
    · rw [if_pos h, pyGet_cons, pyGet_cons, h]
      simp [hne]
    · rw [if_neg h, pyGet_cons, pyGet_cons, ih]

theorem pySet_pySet_self {α : Type} (d : List (String × α)) (k : String)
    (v w : α) : pySet (pySet d k v) k w = pySet d k w := by
  induction d with
  | nil => simp [pySet]
  | cons a d ih =>
    rw [pySet]
    by_cases h : a.1 = k
    · rw [if_pos h, pySet, if_pos rfl, pySet, if_pos h]
    · rw [if_neg h, pySet, if_neg h, pySet, if_neg h, ih]

/-- An entry found by `pyGet` is an entry of the list. -/
theorem pyGet_mem {α : Type} {d : List (String × α)} {k : String} {v : α}
    (h : pyGet d k = some v) : (k, v) ∈ d := by
  induction d with
  | nil => simp [pyGet, List.find?] at h
  | cons a d ih =>
    rw [pyGet_cons] at h
    by_cases ha : a.1 = k
    · rw [if_pos ha] at h
      obtain ⟨a1, a2⟩ := a
      injection h with h2
      subst h2
      subst ha
      exact List.mem_cons_self _ _
    · rw [if_neg ha] at h
      exact List.mem_cons_of_mem _ (ih h)

/-- With duplicate-free keys, `pyGet` finds every entry of the list. -/
theorem pyGet_of_mem_nodup {α : Type} {d : List (String × α)} {k : String}
    {v : α} (hnd : (d.map Prod.fst).Nodup) (hm : (k, v) ∈ d) :
    pyGet d k = some v := by
  induction d with
  | nil => simp at hm
  | cons a d ih =>
    rw [List.map_cons, List.nodup_cons] at hnd
    rcases List.mem_cons.mp hm with h | h
    · subst h
      simp [pyGet_cons]
    · have hk : a.1 ≠ k := by
        intro he
        exact hnd.1 (he ▸ List.mem_map_of_mem Prod.fst h)
      rw [pyGet_cons, if_neg hk]
      exact ih hnd.2 h

/-! ### Fold lemmas for Python `max` -/

theorem foldl_max_init_le (l : List Int) (a : Int) : a ≤ l.foldl max a := by
  induction l generalizing a with
  | nil => simp
  | cons b l ih => exact le_trans (le_max_left a b) (ih (max a b))

theorem foldl_max_le {l : List Int} {a v : Int} (hv : v ∈ l) :
    v ≤ l.foldl max a := by
  induction l generalizing a with
  | nil => simp at hv
  | cons b l ih =>
    rcases List.mem_cons.mp hv with h | h
    · subst h
      exact le_trans (le_max_right a v) (foldl_max_init_le l (max a v))
    · exact ih h

theorem foldl_max_mem (l : List Int) (a : Int) :
    l.foldl max a = a ∨ l.foldl max a ∈ l := by
  induction l generalizing a with
  | nil => simp
  | cons b l ih =>
    rcases ih (max a b) with h | h
    · rcases le_total a b with hab | hab
      · right
        rw [List.foldl_cons, h, max_eq_right hab]
        exact List.mem_cons_self b l
      · left
        rw [List.foldl_cons, h, max_eq_left hab]
    · right
      exact List.mem_cons_of_mem b h

/-- `pyMaxInt` of a nonempty list is a maximal element of the list. -/
theorem pyMaxInt_spec {l : List Int} (hne : l ≠ []) :
    pyMaxInt l ∈ l ∧ ∀ v ∈ l, v ≤ pyMaxInt l := by
  cases l with
  | nil => exact absurd rfl hne
  | cons a l =>
    constructor
    · rcases foldl_max_mem l a with h | h
      · rw [pyMaxInt, h]; exact List.mem_cons_self a l
      · exact List.mem_cons_of_mem a h
    · intro v hv
      rcases List.mem_cons.mp hv with h | h
      · exact h ▸ foldl_max_init_le l a
      · exact foldl_max_le h

/-- Indexing a nonempty list at `n % length` with a default hits a member. -/
theorem getD_mod_mem {α : Type} [Inhabited α] (l : List α) (n : Nat)
    (d : α) (hne : l ≠ []) : l.getD (n % l.length) d ∈ l := by
  have hlen : 0 < l.length := List.length_pos.mpr hne
  have hlt : n % l.length < l.length := Nat.mod_lt _ hlen
  rw [List.getD_eq_getElem l d hlt]
  exact l.getElem_mem hlt

/-! ### C1: zone control arbitration -/

theorem evalController_eq_some_iff {base_limit : Nat}
    {markers : List (String × Int)} (hnd : (markers.map Prod.fst).Nodup)
    (p : String) :
    evalController base_limit markers = some p ↔
      UniqueLeaderAtThreshold base_limit markers p := by
  by_cases hne : markers = []
  · subst hne
    simp [evalController, UniqueLeaderAtThreshold]
  · have hEval : evalController base_limit markers =
        (match (markers.filter
            (fun kv => kv.2 = pyMaxInt (markers.map (fun kv => kv.2)))).map
            (fun kv => kv.1) with
         | [p0] =>
            if pyMaxInt (markers.map (fun kv => kv.2)) ≥
                ((base_limit : Int) / 2 + 1) then some p0 else none
         | _ => none) := by
      unfold evalController
      rw [if_neg hne]
    have hvals : markers.map (fun kv => kv.2) ≠ [] := by
      simpa using hne
    obtain ⟨hmMem, hmMax⟩ := pyMaxInt_spec hvals
    rw [hEval]
    set M := pyMaxInt (markers.map (fun kv => kv.2)) with hM
    constructor
    · intro h
      rcases hLdr : (markers.filter (fun kv => kv.2 = M)).map (fun kv => kv.1)
        with _ | ⟨p0, rest⟩
      · rw [hLdr] at h
        simp at h
      · rcases rest with _ | ⟨p1, rest⟩
        · rw [hLdr] at h
          by_cases hth : ((base_limit : Int) / 2 + 1) ≤ M
          · rw [show ((match [p0] with
                | [q] => if M ≥ ((base_limit : Int) / 2 + 1) then some q
                    else none
                | _ => none) : Option String) =
                if M ≥ ((base_limit : Int) / 2 + 1) then some p0 else none
                from rfl, if_pos (by exact hth)] at h
            injection h with hpp
            -- the singleton filter entry is (p, M)
            rcases hF : markers.filter (fun kv => kv.2 = M) with _ | ⟨e, erest⟩
            · rw [hF] at hLdr
              simp at hLdr
            · rw [hF] at hLdr
              rcases erest with _ | ⟨e2, erest⟩
              · simp only [List.map_cons, List.map_nil] at hLdr
                injection hLdr with h1 _
                have heMem : e ∈ markers.filter (fun kv => kv.2 = M) := by
                  rw [hF]; exact List.mem_cons_self _ _
                have heM : e.2 = M := by
                  have := List.of_mem_filter heMem
                  simpa using this
                have heMk : e ∈ markers := List.mem_of_mem_filter heMem
                have hpM : (p, M) ∈ markers := by
                  have he : e = (p, M) := by
                    have he2 : e = (e.1, e.2) := rfl
                    rw [he2, h1, hpp, heM]
                  rw [← he]
                  exact heMk
                refine ⟨M, hpM, hth, ?_⟩
                intro q v hqv
                refine ⟨hmMax _ (List.mem_map_of_mem (fun kv => kv.2) hqv), ?_⟩
                intro hv
                have hqF : (q, v) ∈ markers.filter (fun kv => kv.2 = M) := by
                  apply List.mem_filter.mpr
                  exact ⟨hqv, by simpa using hv⟩
                rw [hF] at hqF
                rcases List.mem_cons.mp hqF with h' | h'
                · have hq : q = e.1 := by rw [← h']
                  rw [hq, h1, hpp]
                · simp at h'
              · simp at hLdr
          · rw [show ((match [p0] with
                | [q] => if M ≥ ((base_limit : Int) / 2 + 1) then some q
                    else none
                | _ => none) : Option String) =
                if M ≥ ((base_limit : Int) / 2 + 1) then some p0 else none
                from rfl, if_neg hth] at h
            cases h
        · rw [hLdr] at h
          simp at h
    · rintro ⟨m, hpMem, hth, hbound⟩
      -- the maximum is m
      have hmLe : M ≤ m := by
        rcases List.mem_map.mp hmMem with ⟨⟨q, v⟩, hqv, hv⟩
        have := (hbound q v hqv).1
        omega
      have hLeM : m ≤ M :=
        hmMax _ (List.mem_map_of_mem (fun kv => kv.2) hpMem)
      have hmEq : M = m := le_antisymm hmLe hLeM
      -- the filter is exactly [(p, m)]
      have hall : ∀ e ∈ markers.filter (fun kv => kv.2 = M), e = (p, m) := by
        intro e he
        obtain ⟨e1, e2⟩ := e
        have heMk : (e1, e2) ∈ markers := List.mem_of_mem_filter he
        have heM : e2 = M := by
          have := List.of_mem_filter he
          simpa using this
        obtain ⟨_, huniq⟩ := hbound e1 e2 heMk
        have he1 : e1 = p := huniq (by omega)
        rw [he1, heM, hmEq]
      have hndF : ((markers.filter (fun kv => kv.2 = M)).map Prod.fst).Nodup :=
        List.Nodup.sublist (List.Sublist.map _ (List.filter_sublist _)) hnd
      have hpF : (p, m) ∈ markers.filter (fun kv => kv.2 = M) := by
        apply List.mem_filter.mpr
        exact ⟨hpMem, by simpa using hmEq.symm⟩
      have hFeq : markers.filter (fun kv => kv.2 = M) = [(p, m)] := by
        rcases hF : markers.filter (fun kv => kv.2 = M) with _ | ⟨e, rest⟩
        · rw [hF] at hpF
          simp at hpF
        · have he : e = (p, m) := hall e (by rw [hF]; exact List.mem_cons_self _ _)
          rcases rest with _ | ⟨e2, rest2⟩
          · rw [hF, he]
          · have he2 : e2 = (p, m) :=
              hall e2 (by rw [hF]; simp)
            rw [hF, he, he2] at hndF
            simp at hndF
      rw [hFeq]
      have hth' : M ≥ ((base_limit : Int) / 2 + 1) := by rw [hmEq]; exact hth
      simp [hth']

/-- After a successful `check_zone_control`, the checked zone's stored
controller is exactly `evalController` of its (unchanged) markers, and the
board capacity is unchanged. -/
theorem check_zone_control_post {gs gs' : GameState} {zone_name : String}
    (h : check_zone_control gs zone_name = .ok gs') {zd' : ZoneData}
    (hget : pyGet gs'.board.gua_zones zone_name = some zd') :
    zd'.controller = evalController gs'.board.base_limit zd'.markers := by
  unfold check_zone_control at h
  rcases hz : pyGet gs.board.gua_zones zone_name with _ | zd
  · rw [hz] at h
    cases h
  · rw [hz] at h
    injection h with h
    subst h
    simp only at hget
    rw [pyGet_pySet_self] at hget
    injection hget with hget
    subst hget
    rfl

/-- Inversion for an accepted `play_card`: the returned state is the
result of the final `check_zone_control` call. -/
theorem play_card_ok_some_inv {gs gs' : GameState} {i : Int} {z : String}
    {m : Modifiers} (h : play_card gs i z m = .ok (some gs')) :
    ∃ gsMid, check_zone_control gsMid z = .ok gs' := by
  simp only [play_card] at h
  rcases hcp : gs.get_current_player with _ | player <;> rw [hcp] at h
  · cases h
  · split at h
    · cases h
    · split at h
      · cases h
      · split at h
        · cases h
        · split at h
          · cases h
          · split at h
            · cases h
            · split at h
              · cases h
              · rename_i ns2 hns2
                injection h with h
                injection h with h
                exact ⟨_, by rw [hns2, h]⟩

/-- **C1**: after every control re-evaluation — `check_zone_control`
itself, and as the side effect of an accepted `play_card` — the checked
zone's controller is some player `p` iff `p` is the unique holder of the
maximum marker count and that maximum is at least
`floor(capacity/2) + 1`; in every other case (no markers, tie at the
maximum, or a sole leader below threshold) the controller is `none`.
(The duplicate-free-keys hypothesis is the Python `dict` invariant of the
markers mapping.) -/
theorem check_zone_control_sets_controller_iff :
    (∀ (gs gs' : GameState) (zone_name : String) (zd' : ZoneData)
        (p : String),
      check_zone_control gs zone_name = .ok gs' →
      pyGet gs'.board.gua_zones zone_name = some zd' →
      (zd'.markers.map Prod.fst).Nodup →
      (zd'.controller = some p ↔
        UniqueLeaderAtThreshold gs'.board.base_limit zd'.markers p)) ∧
    (∀ (gs gs' : GameState) (card_index : Int) (zone_choice : String)
        (mods : Modifiers) (zd' : ZoneData) (p : String),
      play_card gs card_index zone_choice mods = .ok (some gs') →
      pyGet gs'.board.gua_zones zone_choice = some zd' →
      (zd'.markers.map Prod.fst).Nodup →
      (zd'.controller = some p ↔
        UniqueLeaderAtThreshold gs'.board.base_limit zd'.markers p)) := by
  constructor
  · intro gs gs' zone_name zd' p hcheck hget hnd
    rw [check_zone_control_post hcheck hget]
    exact evalController_eq_some_iff hnd p
  · intro gs gs' card_index zone_choice mods zd' p hplay hget hnd
    obtain ⟨gsMid, hcheck⟩ := play_card_ok_some_inv hplay
    rw [check_zone_control_post hcheck hget]
    exact evalController_eq_some_iff hnd p

/-- Witness for C1: the re-evaluation of the tied zone 乾 of `exTieState`
(controller cleared on the 3–3 tie), and the 乾 zone after `exPlayerA`
plays a card from `exState` (one marker, below threshold, no
controller). -/
theorem check_zone_control_sets_controller_iff_witness :
    ((exTieZd.controller = some "A") ↔
      UniqueLeaderAtThreshold exTieOut.board.base_limit exTieZd.markers "A") ∧
    ((exPlayZd.controller = some "A") ↔
      UniqueLeaderAtThreshold exPlayOut.board.base_limit exPlayZd.markers "A") :=
  ⟨check_zone_control_sets_controller_iff.1 exTieState exTieOut "乾" exTieZd
      "A" (by rfl) (by decide) (by decide),
    check_zone_control_sets_controller_iff.2 exState exPlayOut 0 "乾" {}
      exPlayZd "A" (by rfl) (by decide) (by decide)⟩

/-! ### C2 / C4: the move and play_card resolvers -/

/-- Full case analysis of the `move` resolver: rejection (`Except.ok
none`) exactly on an invalid zone string or unaffordable cost; acceptance
implies the full `MoveEffect`; acceptance iff valid zone and affordable
cost.  Note there is no distinctness check against the current
position. -/
theorem move_spec (gs : GameState) (t : String) (m : Modifiers)
    (pl : Player) (hcp : gs.get_current_player = some pl) :
    (move gs t m = .ok none ↔
      (Zone.ofString t = none ∨ pl.qi < max (1 - m.qi_discount) 0)) ∧
    (∀ gs', move gs t m = .ok (some gs') → MoveEffect gs t m gs') ∧
    ((∃ gs', move gs t m = .ok (some gs')) ↔
      ((Zone.ofString t).isSome ∧ max (1 - m.qi_discount) 0 ≤ pl.qi)) := by
  rcases hoz : Zone.ofString t with _ | tz
  · have hmv : move gs t m = .ok none := by
      simp only [move, hcp, hoz]
    refine ⟨by simp [hmv], ?_, ?_⟩
    · intro gs' h
      rw [hmv] at h
      simp at h
    · simp [hmv]
  · by_cases hq : pl.qi < max (1 - m.qi_discount) 0
    · have hmv : move gs t m = .ok none := by
        simp only [move, hcp, hoz, if_pos hq]
      refine ⟨by simp [hmv, hq], ?_, ?_⟩
      · intro gs' h
        rw [hmv] at h
        simp at h
      · rw [hmv]
        simp
        omega
    · have hmv : move gs t m = .ok (some
          ⟨⟨gs.board.base_limit, gs.board.gua_zones,
            pySet gs.board.player_positions pl.name tz⟩,
           gs.players.set gs.current_player_index
             { pl with position := tz,
                       qi := pl.qi - max (1 - m.qi_discount) 0 },
           gs.current_player_index, gs.turn, gs.current_tian_shi⟩) := by
        simp only [move, hcp, hoz, if_neg hq]
        rfl
      refine ⟨by simp [hmv, hq], ?_, ?_⟩
      · intro gs' h
        rw [hmv] at h
        injection h with h
        injection h with h
        subst h
        exact ⟨pl, tz, hcp, hoz, rfl, rfl, rfl, rfl, rfl, rfl, rfl⟩
      · rw [hmv]
        simp
        omega

/-- Evaluation of an accepted `play_card` run under explicit validity
facts: the exact returned state. -/
theorem play_card_eval (gs : GameState) (i : Int) (z : String)
    (m : Modifiers) (pl : Player) (hcp : gs.get_current_player = some pl)
    (hin : 0 ≤ i ∧ i < (pl.hand.length : Int)) (card : GuaCard)
    (hcard : pl.hand[i.toNat]? = some card)
    (hz : z ∈ card.associated_guas) (zd : ZoneData)
    (hzd : pyGet gs.board.gua_zones z = some zd) :
    play_card gs i z m = .ok (some
      ⟨⟨gs.board.base_limit,
        pySet gs.board.gua_zones z
          ⟨pySet zd.markers pl.name
              ((pyGet zd.markers pl.name).getD 0 + (1 + m.extra_influence)),
            evalController gs.board.base_limit
              (pySet zd.markers pl.name
                ((pyGet zd.markers pl.name).getD 0 + (1 + m.extra_influence)))⟩,
        gs.board.player_positions⟩,
       gs.players.set gs.current_player_index
         { pl with hand := pl.hand.eraseIdx i.toNat,
                   current_task_card := some card,
                   placed_influence_this_turn := true },
       gs.current_player_index, gs.turn, gs.current_tian_shi⟩) := by
  simp only [play_card, check_zone_control, GameState.setCurrentPlayer, hcp,
    hcard, hzd, if_neg (not_not_intro hin), if_neg (not_not_intro hz),
    pyGet_pySet_self, pySet_pySet_self]

/-- Reduction of an accepted `play_card` run under explicit validity
facts: the returned state carries the full effect. -/
theorem play_card_success_spec (gs : GameState) (i : Int) (z : String)
    (m : Modifiers) (pl : Player) (hcp : gs.get_current_player = some pl)
    (hin : 0 ≤ i ∧ i < (pl.hand.length : Int)) (card : GuaCard)
    (hcard : pl.hand[i.toNat]? = some card)
    (hz : z ∈ card.associated_guas) (zd : ZoneData)
    (hzd : pyGet gs.board.gua_zones z = some zd) :
    ∃ gs', play_card gs i z m = .ok (some gs') ∧
      PlayCardEffect gs i z m gs' :=
  ⟨_, play_card_eval gs i z m pl hcp hin card hcard hz zd hzd,
    pl, card, zd, hcp, hcard, hz, hzd,
    rfl, rfl, rfl, rfl, rfl, rfl, rfl⟩

/-- **C2**: the `play_card` and `move` resolvers are atomic: each call on
a state with a current player (and, for `play_card`, hand cards whose zone
tags name real zones — the deck invariant) returns either `Except.ok none`
(a rejection, with the caller's state untouched) or `Except.ok (some gs')`
with the effect fully applied; no exception escapes and no partially
updated state is ever returned.  The caller's input state is unchanged by
construction: the source `deepcopy`s it and mutates only the copy, which
the embedding renders as a pure function of the input value. -/
theorem action_resolvers_atomic (gs : GameState) (card_index : Int)
    (zone_choice target : String) (mods : Modifiers) (pl : Player)
    (hcp : gs.get_current_player = some pl)
    (hguas : ∀ c ∈ pl.hand, ∀ g ∈ c.associated_guas,
      (pyGet gs.board.gua_zones g).isSome) :
    (play_card gs card_index zone_choice mods = .ok none ∨
      ∃ gs', play_card gs card_index zone_choice mods = .ok (some gs') ∧
        PlayCardEffect gs card_index zone_choice mods gs') ∧
    (move gs target mods = .ok none ∨
      ∃ gs', move gs target mods = .ok (some gs') ∧
        MoveEffect gs target mods gs') := by
  constructor
  · by_cases hin : 0 ≤ card_index ∧ card_index < (pl.hand.length : Int)
    · rcases hcard : pl.hand[card_index.toNat]? with _ | card
      · rw [List.getElem?_eq_none_iff] at hcard
        exfalso
        omega
      · by_cases hz : zone_choice ∈ card.associated_guas
        · have hmem : card ∈ pl.hand := by
            have := List.getElem?_eq_some.mp hcard
            obtain ⟨hlt, hget⟩ := this
            exact hget ▸ List.getElem_mem hlt
          have hzget := hguas card hmem zone_choice hz
          rcases hzd : pyGet gs.board.gua_zones zone_choice with _ | zd
          · rw [hzd] at hzget
            simp at hzget
          · exact Or.inr (play_card_success_spec gs card_index zone_choice
              mods pl hcp hin card hcard hz zd hzd)
        · left
          simp only [play_card, hcp, hcard, if_neg (not_not_intro hin),
            if_pos (by exact hz : zone_choice ∉ card.associated_guas)]
    · left
      simp only [play_card, hcp, if_pos hin]
  · rcases hoz : Zone.ofString target with _ | tz
    · left
      simp only [move, hcp, hoz]
    · by_cases hq : pl.qi < max (1 - mods.qi_discount) 0
      · left
        simp only [move, hcp, hoz, if_pos hq]
      · right
        obtain ⟨h1, h2, h3⟩ := move_spec gs target mods pl hcp
        obtain ⟨gs', hg⟩ := h3.mpr ⟨by rw [hoz]; rfl, by omega⟩
        exact ⟨gs', hg, h2 gs' hg⟩

/-- Witness for C2 at `exState`: player A playing hand card 0 into 乾 and
moving to 天. -/
theorem action_resolvers_atomic_witness :
    ((play_card exState 0 "乾" {} = .ok none ∨
      ∃ gs', play_card exState 0 "乾" {} = .ok (some gs') ∧
        PlayCardEffect exState 0 "乾" {} gs') ∧
     (move exState "天" {} = .ok none ∨
      ∃ gs', move exState "天" {} = .ok (some gs') ∧
        MoveEffect exState "天" {} gs')) :=
  action_resolvers_atomic exState 0 "乾" "天" {} exPlayerA (by decide)
    (by decide)

/-- An action result is accepted exactly when it is `Except.ok (some _)`. -/
theorem isAccepted_iff (r : Except PyError (Option GameState)) :
    isAccepted r = true ↔ ∃ s, r = .ok (some s) := by
  rcases r with e | o
  · simp [isAccepted]
  · rcases o with _ | s <;> simp [isAccepted]

/-- **C4 counterexample**: from `exState` (current player A standing in
地 with 5 energy), `move` to 地 — the current position — is accepted,
although the claim requires rejection of a non-distinct target. -/
theorem move_accepts_nondistinct_target :
    ¬ MoveAcceptIffDistinct exState exPlayerA "地" {} ∧
    exState.get_current_player = some exPlayerA ∧
    exPlayerA.position = Zone.DI ∧
    Zone.ofString "地" = some Zone.DI ∧
    isAccepted (move exState "地" {}) = true := by
  constructor
  · intro h
    rw [MoveAcceptIffDistinct] at h
    have h1 : isAccepted (move exState "地" {}) = true := by decide
    have h2 := (h.mp h1).2.1
    exact h2 (by decide)
  · exact ⟨by decide, by decide, by decide, by decide⟩

/-- **C4** (amended): resolving a move succeeds iff the target names a
valid location and the player's energy is at least
`max(1 - qi_discount, 0)` — the resolver does not require the target to be
distinct from the current position (the action catalog, not the resolver,
filters same-position moves); on success exactly that cost is deducted and
the position updated, and the call rejects exactly on an invalid zone name
or insufficient energy. -/
theorem move_accept_iff_valid_and_affordable (gs : GameState) (t : String)
    (mods : Modifiers) (pl : Player) (hcp : gs.get_current_player = some pl) :
    (isAccepted (move gs t mods) = true ↔
      ((Zone.ofString t).isSome ∧ max (1 - mods.qi_discount) 0 ≤ pl.qi)) ∧
    (∀ gs', move gs t mods = .ok (some gs') → MoveEffect gs t mods gs') ∧
    (move gs t mods = .ok none ↔
      (Zone.ofString t = none ∨ pl.qi < max (1 - mods.qi_discount) 0)) := by
  obtain ⟨h1, h2, h3⟩ := move_spec gs t mods pl hcp
  exact ⟨(isAccepted_iff _).trans h3, h2, h1⟩

/-- Witness for the amended C4 at `exState`, moving player A to 天. -/
theorem move_accept_iff_valid_and_affordable_witness :
    (isAccepted (move exState "天" {}) = true ↔
      ((Zone.ofString "天").isSome ∧
        max (1 - ({} : Modifiers).qi_discount) 0 ≤ exPlayerA.qi)) ∧
    (∀ gs', move exState "天" {} = .ok (some gs') →
      MoveEffect exState "天" {} gs') ∧
    (move exState "天" {} = .ok none ↔
      (Zone.ofString "天" = none ∨
        exPlayerA.qi < max (1 - ({} : Modifiers).qi_discount) 0)) :=
  move_accept_iff_valid_and_affordable exState "天" {} exPlayerA (by decide)

/-! ### C5: the action catalog's move gate -/

theorem zone_val_inj : ∀ a b : Zone, a.val = b.val → a = b := by decide

theorem get_valid_actions_map_snd (gs : GameState) (player : Player)
    (ap : Int) (mods : Modifiers) :
    (get_valid_actions gs player ap mods).map Prod.snd =
      getValidActionEntries gs player ap mods := by
  unfold get_valid_actions
  rw [List.map_map]
  exact List.enum_map_snd _

theorem exists_entry_iff (gs : GameState) (player : Player) (ap : Int)
    (mods : Modifiers) (P : ActionEntry → Prop) :
    (∃ e ∈ get_valid_actions gs player ap mods, P e.2) ↔
      ∃ a ∈ getValidActionEntries gs player ap mods, P a := by
  rw [← get_valid_actions_map_snd gs player ap mods]
  constructor
  · rintro ⟨e, he, hP⟩
    exact ⟨e.2, List.mem_map_of_mem Prod.snd he, hP⟩
  · rintro ⟨a, ha, hP⟩
    rcases List.mem_map.mp ha with ⟨e, he, rfl⟩
    exact ⟨e, he, hP⟩

/-- Characterization of the move descriptors inside the catalog's entry
list: one per non-current zone, present exactly when `ap ≥ 1` and
`qi ≥ 1`. -/
theorem move_entry_mem_iff (gs : GameState) (player : Player) (ap : Int)
    (mods : Modifiers) (a : ActionEntry) :
    (a ∈ getValidActionEntries gs player ap mods ∧ a.action = .fn "move") ↔
      (1 ≤ ap ∧ 1 ≤ player.qi ∧ ∃ zone : Zone, zone ≠ player.position ∧
        a = { action := .fn "move", cost := 1,
              description := "Move to " ++ zone.val,
              args := [.str zone.val] }) := by
  constructor
  · rintro ⟨ha, hact⟩
    unfold getValidActionEntries at ha
    simp only [List.mem_append, List.mem_singleton, List.mem_flatMap,
      List.mem_map, List.mem_filter, List.mem_cons,
      List.not_mem_nil, or_false] at ha
    rcases ha with ((((((((ha | ha) | ha) | ha) | ha) | ha) | ha) | ha) | ha) | ha
    · subst ha
      exact absurd hact (by decide)
    · rcases ha with ⟨ic, hic, ha⟩
      split at ha
      · rcases List.mem_map.mp ha with ⟨gua, hgua, rfl⟩
        simp at hact
      · simp at ha
    · split at ha
      · rcases List.mem_map.mp ha with ⟨zone, hzone, rfl⟩
        rename_i hcond
        refine ⟨hcond.1, hcond.2, zone, ?_, rfl⟩
        have := (List.mem_filter.mp hzone).2
        simpa using this
      · simp at ha
    · split at ha
      · rw [List.mem_singleton] at ha
        subst ha
        exact absurd hact (by decide)
      · simp at ha
    · split at ha
      · rw [List.mem_singleton] at ha
        subst ha
        exact absurd hact (by decide)
      · simp at ha
    · split at ha
      · rw [List.mem_singleton] at ha
        subst ha
        exact absurd hact (by decide)
      · simp at ha
    · split at ha
      · rw [List.mem_singleton] at ha
        subst ha
        exact absurd hact (by decide)
      · simp at ha
    · rcases ha with ha | ha | ha | ha | ha | ha <;>
        (subst ha; exact absurd hact (by decide))
    · split at ha
      · rw [List.mem_singleton] at ha
        subst ha
        exact absurd hact (by decide)
      · simp at ha
    · split at ha
      · rw [List.mem_singleton] at ha
        subst ha
        exact absurd hact (by decide)
      · simp at ha
  · rintro ⟨hap, hqi, zone, hzone, rfl⟩
    refine ⟨?_, rfl⟩
    unfold getValidActionEntries
    simp only [List.mem_append]
    refine Or.inl (Or.inl (Or.inl (Or.inl (Or.inl (Or.inl (Or.inl
      (Or.inr ?_)))))))
    rw [if_pos ⟨hap, hqi⟩]
    apply List.mem_map_of_mem
    apply List.mem_filter.mpr
    refine ⟨?_, by simpa using hzone⟩
    cases zone <;> simp [Zone.all]

/-- **C5 counterexample**: with `ap = 1`, `energy = 0` and
`qi_discount = 1` the movement cost is `max(1 - 1, 0) = 0 ≤ energy`, so
the claim as stated requires move entries, but `get_valid_actions` offers
none (the code gates on the flat `qi >= 1`). -/
theorem move_gate_ignores_discount :
    ¬ MoveEntriesIffDiscountedCost exState exPoorPlayer 1
        { qi_discount := 1 } ∧
    exPoorPlayer.qi = 0 ∧
    max (1 - ({ qi_discount := 1 } : Modifiers).qi_discount) 0 = 0 := by
  refine ⟨?_, by decide, by decide⟩
  intro h
  rw [MoveEntriesIffDiscountedCost] at h
  have h2 := h.mpr (by decide)
  have h3 := h2 Zone.REN (by decide)
  revert h3
  decide

/-- **C5** (amended): `get_valid_actions` contains a move entry for a
location other than the player's current position iff `ap ≥ 1` and the
player's energy is at least 1 — the flat `qi >= 1` gate of the code, which
ignores `qi_discount`; in particular a player with `energy = 0` is never
offered a move entry (so the claimed `energy = 0`, `qi_discount = 0`
scenario does hold). -/
theorem get_valid_actions_move_entries_iff (gs : GameState)
    (player : Player) (ap : Int) (mods : Modifiers) (zone : Zone)
    (hz : zone ≠ player.position) :
    (∃ e ∈ get_valid_actions gs player ap mods,
        e.2.action = .fn "move" ∧ e.2.args = [.str zone.val]) ↔
      (1 ≤ ap ∧ 1 ≤ player.qi) := by
  refine Iff.trans (exists_entry_iff gs player ap mods
    (fun a => a.action = .fn "move" ∧ a.args = [.str zone.val])) ?_
  constructor
  · rintro ⟨a, ha, hact, hargs⟩
    obtain ⟨hap, hqi, zone', hz', rfl⟩ :=
      (move_entry_mem_iff gs player ap mods a).mp ⟨ha, hact⟩
    exact ⟨hap, hqi⟩
  · rintro ⟨hap, hqi⟩
    refine ⟨{ action := .fn "move", cost := 1,
              description := "Move to " ++ zone.val,
              args := [.str zone.val] }, ?_, rfl, rfl⟩
    exact ((move_entry_mem_iff gs player ap mods _).mpr
      ⟨hap, hqi, zone, hz, rfl⟩).1

/-- Witness for the amended C5: player A (5 energy) with 1 AP is offered a
move to 天. -/
theorem get_valid_actions_move_entries_iff_witness :
    (∃ e ∈ get_valid_actions exState exPlayerA 1 {},
        e.2.action = .fn "move" ∧ e.2.args = [.str Zone.TIAN.val]) ↔
      (1 ≤ (1 : Int) ∧ 1 ≤ exPlayerA.qi) :=
  get_valid_actions_move_entries_iff exState exPlayerA 1 {} Zone.TIAN
    (by decide)

/-! ### C3: the hexagram-transformation success probability -/

/-- **C3**: for each risk level in {low, medium, high} and any player
with non-negative insight, `_calculate_success_rate` equals the spec's
formula `clamp(0.7 + risk_mod + min(0.2, 0.01·d) + balance_bonus,
[0.10, 0.95])`; in particular, for `d = 9`, risk low and balance ratio
`1/2` the raw sum `1.09` is clamped to `0.95`. -/
theorem biangua_success_rate_matches_spec :
    (∀ (risk : RiskLevel) (t : BianguaTransformation) (p : Player),
      t.risk_level = risk.toPy → 0 ≤ p.dao_xing →
      t.calculate_success_rate (some p) =
        specSuccessRate risk p.dao_xing.toNat
          p.yin_yang_balance.balance_ratio) ∧
    (∀ (t : BianguaTransformation) (p : Player),
      t.risk_level = "low" → p.dao_xing = 9 →
      p.yin_yang_balance.balance_ratio = 1/2 →
      t.calculate_success_rate (some p) = 0.95) ∧
    specSuccessRate .low 9 (1/2) = 0.95 := by
  refine ⟨?_, ?_, ?_⟩
  · intro risk t p htr hd
    have hcast : ((p.dao_xing.toNat : ℚ)) = ((p.dao_xing : ℚ)) := by
      exact_mod_cast Int.toNat_of_nonneg hd
    cases risk
    · rw [RiskLevel.toPy] at htr
      simp only [BianguaTransformation.calculate_success_rate,
        specSuccessRate, htr]
      rw [show pyGet risk_modifiers "low" = some (0.2 : ℚ) from rfl]
      simp only [Option.getD_some, hcast]
      norm_num [mul_comm]
    · rw [RiskLevel.toPy] at htr
      simp only [BianguaTransformation.calculate_success_rate,
        specSuccessRate, htr]
      rw [show pyGet risk_modifiers "medium" = some (0.0 : ℚ) from rfl]
      simp only [Option.getD_some, hcast]
      norm_num [mul_comm]
    · rw [RiskLevel.toPy] at htr
      simp only [BianguaTransformation.calculate_success_rate,
        specSuccessRate, htr]
      rw [show pyGet risk_modifiers "high" = some (-0.3 : ℚ) from rfl]
      simp only [Option.getD_some, hcast]
      norm_num [mul_comm]
  · intro t p htr hd9 hr
    simp only [BianguaTransformation.calculate_success_rate, htr, hd9, hr]
    rw [show pyGet risk_modifiers "low" = some (0.2 : ℚ) from rfl]
    simp only [Option.getD_some]
    norm_num
  · rw [specSuccessRate]
    norm_num

/-- Witness for C3: `exBiangua` (risk low) attempted by `exPlayer9`
(insight 9, yin/yang 1:3 giving balance ratio 1/2). -/
theorem biangua_success_rate_matches_spec_witness :
    (exBiangua.calculate_success_rate (some exPlayer9) =
      specSuccessRate .low exPlayer9.dao_xing.toNat
        exPlayer9.yin_yang_balance.balance_ratio) ∧
    exBiangua.calculate_success_rate (some exPlayer9) = 0.95 :=
  ⟨biangua_success_rate_matches_spec.1 .low exBiangua exPlayer9 rfl
      (by decide),
    biangua_success_rate_matches_spec.2.1 exBiangua exPlayer9 rfl rfl
      (by norm_num [exPlayer9, YinYangBalance.balance_ratio, min_def])⟩

/-! ### C6: the study action -/

/-- **C6 (code bug)**: `study`'s first statement evaluates
`2 + mods.extra_card_draw`, but the `Modifiers` dataclass declares no
`extra_card_draw` field, so every call on a state with a current player
raises `AttributeError` — the specified behaviour (draw
`2 + extra_card_draw` cards, +1 in 人, +1 insight once the hand reaches 5)
is unreachable; the call never returns a state at all. -/
theorem study_always_raises_attribute_error (gs : GameState)
    (mods : Modifiers) (draws : Nat → GuaCard) (pl : Player)
    (hcp : gs.get_current_player = some pl) :
    study gs mods draws = .error .attributeError := by
  simp only [study, hcp]
  rfl

/-- Witness for C6: `study` from `exState` raises. -/
theorem study_always_raises_attribute_error_witness :
    study exState {} (fun _ => exCard) = .error .attributeError :=
  study_always_raises_attribute_error exState {} (fun _ => exCard)
    exPlayerA (by decide)

/-! ### C7: turn-limit tiebreak -/

theorem pyMaxBy_foldl_spec (key : Player → Nat) :
    ∀ (t : List Player) (b : Player),
      (t.foldl (fun best x => if key best < key x then x else best) b = b ∧
        ∀ x ∈ t, key x ≤ key b) ∨
      (∃ (i : Nat) (w : Player),
        t.foldl (fun best x => if key best < key x then x else best) b = w ∧
        t[i]? = some w ∧ key b < key w ∧ (∀ x ∈ t, key x ≤ key w) ∧
        (∀ j q, j < i → t[j]? = some q → key q < key w)) := by
  intro t
  induction t with
  | nil => intro b; left; simp
  | cons a t ih =>
    intro b
    by_cases hab : key b < key a
    · rw [List.foldl_cons, if_pos hab]
      rcases ih a with ⟨hfold, hbound⟩ | ⟨i, w, hfold, hget, hlt, hbound, hfirst⟩
      · right
        refine ⟨0, a, hfold, by simp, hab, ?_, ?_⟩
        · intro x hx
          rcases List.mem_cons.mp hx with rfl | hx
          · exact le_refl _
          · exact hbound x hx
        · intro j q hj _
          omega
      · right
        refine ⟨i + 1, w, hfold, by simpa using hget, lt_trans hab hlt, ?_, ?_⟩
        · intro x hx
          rcases List.mem_cons.mp hx with rfl | hx
          · exact le_of_lt hlt
          · exact hbound x hx
        · intro j q hj hq
          rcases j with _ | j
          · rw [List.getElem?_cons_zero] at hq
            injection hq with hq
            subst hq
            exact hlt
          · rw [List.getElem?_cons_succ] at hq
            exact hfirst j q (by omega) hq
    · rw [List.foldl_cons, if_neg hab]
      rcases ih b with ⟨hfold, hbound⟩ | ⟨i, w, hfold, hget, hlt, hbound, hfirst⟩
      · left
        refine ⟨hfold, ?_⟩
        intro x hx
        rcases List.mem_cons.mp hx with rfl | hx
        · omega
        · exact hbound x hx
      · right
        refine ⟨i + 1, w, hfold, by simpa using hget, hlt, ?_, ?_⟩
        · intro x hx
          rcases List.mem_cons.mp hx with rfl | hx
          · omega
          · exact hbound x hx
        · intro j q hj hq
          rcases j with _ | j
          · rw [List.getElem?_cons_zero] at hq
            injection hq with hq
            subst hq
            omega
          · rw [List.getElem?_cons_succ] at hq
            exact hfirst j q (by omega) hq

/-- Python's `max(lst, key=...)` returns the first element attaining the
maximum key. -/
theorem pyMaxBy_first_argmax (key : Player → Nat) (l : List Player)
    (hl : l ≠ []) :
    ∃ (w : Player) (i : Nat), pyMaxBy l key = some w ∧ l[i]? = some w ∧
      (∀ x ∈ l, key x ≤ key w) ∧
      (∀ j q, j < i → l[j]? = some q → key q < key w) := by
  cases l with
  | nil => exact absurd rfl hl
  | cons a t =>
    rcases pyMaxBy_foldl_spec key t a
      with ⟨hfold, hbound⟩ | ⟨i, w, hfold, hget, hlt, hbound, hfirst⟩
    · refine ⟨a, 0, ?_, by simp, ?_, ?_⟩
      · rw [pyMaxBy, hfold]
      · intro x hx
        rcases List.mem_cons.mp hx with rfl | hx
        · exact le_refl _
        · exact hbound x hx
      · intro j q hj _
        omega
    · refine ⟨w, i + 1, ?_, by simpa using hget, ?_, ?_⟩
      · rw [pyMaxBy, hfold]
      · intro x hx
        rcases List.mem_cons.mp hx with rfl | hx
        · exact le_of_lt hlt
        · exact hbound x hx
      · intro j q hj hq
        rcases j with _ | j
        · rw [List.getElem?_cons_zero] at hq
          injection hq with hq
          subst hq
          exact hlt
        · rw [List.getElem?_cons_succ] at hq
          exact hfirst j q (by omega) hq

/-- **C7 counterexample**: in `exVicState` (turn 51, no instant winner,
both players controlling zero zones, the second player holding strictly
more summed resources), the declared winner is the *first* player in list
order — resources are never consulted, contradicting the claimed
zones-then-resources tiebreak that would select the second player. -/
theorem turn_limit_tiebreak_ignores_resources :
    check_victory_conditions exVicState = some exVicP1 ∧
    exVicState.turn > 50 ∧
    exVicState.players = [exVicP1, exVicP2] ∧
    controlledZoneCount exVicState exVicP1.name =
      controlledZoneCount exVicState exVicP2.name ∧
    resourceSum exVicP1 < resourceSum exVicP2 ∧
    exVicP1 ≠ exVicP2 := by
  decide

/-- **C7** (amended): whenever the turn counter exceeds 50 with no player
meeting an instant-victory condition, the declared winner is the first
player in player-list order among those controlling the maximum number of
zones; summed resources play no role in the tiebreak. -/
theorem turn_limit_winner_first_zone_argmax (gs : GameState)
    (hne : gs.players ≠ [])
    (hno : gs.players.find? (fun player => instant_victory gs player) = none)
    (hturn : gs.turn > 50) :
    ∃ (w : Player) (i : Nat),
      check_victory_conditions gs = some w ∧ gs.players[i]? = some w ∧
      (∀ q ∈ gs.players,
        controlledZoneCount gs q.name ≤ controlledZoneCount gs w.name) ∧
      (∀ j q, j < i → gs.players[j]? = some q →
        controlledZoneCount gs q.name < controlledZoneCount gs w.name) := by
  simp only [check_victory_conditions, hno, if_pos hturn]
  exact pyMaxBy_first_argmax (fun p => controlledZoneCount gs p.name)
    gs.players hne

/-- Witness for the amended C7 at `exVicState`. -/
theorem turn_limit_winner_first_zone_argmax_witness :
    ∃ (w : Player) (i : Nat), check_victory_conditions exVicState = some w ∧
      exVicState.players[i]? = some w ∧
      (∀ q ∈ exVicState.players,
        controlledZoneCount exVicState q.name ≤
          controlledZoneCount exVicState w.name) ∧
      (∀ j q, j < i → exVicState.players[j]? = some q →
        controlledZoneCount exVicState q.name <
          controlledZoneCount exVicState w.name) :=
  turn_limit_winner_first_zone_argmax exVicState (by decide) (by decide)
    (by decide)

/-! ### C8: fortune-telling insight tiers -/

/-- **C8**: with insight at most 3 the fortune draw can only produce the
safe outcomes {平, 小吉, 中吉}; with insight in 4..7 the scale widens to
小凶…大吉 (each of the five outcomes reachable); with insight above 7 the
full scale 大凶…大吉 is sampled (each of the seven outcomes
reachable). -/
theorem divine_fortune_insight_tiers :
    (∀ (d : Int), d ≤ 3 → ∀ pick : Nat,
      divine_fortune_outcome d pick ∈ (["平", "小吉", "中吉"] : List String)) ∧
    (∀ (d : Int), 3 < d → d ≤ 7 →
      (∀ pick : Nat, divine_fortune_outcome d pick ∈
        (["小凶", "平", "小吉", "中吉", "大吉"] : List String)) ∧
      (∀ f ∈ (["小凶", "平", "小吉", "中吉", "大吉"] : List String),
        ∃ pick : Nat, divine_fortune_outcome d pick = f)) ∧
    (∀ (d : Int), 7 < d →
      (∀ pick : Nat, divine_fortune_outcome d pick ∈
        (["大凶", "中凶", "小凶", "平", "小吉", "中吉", "大吉"] : List String)) ∧
      (∀ f ∈ (["大凶", "中凶", "小凶", "平", "小吉", "中吉", "大吉"] :
          List String),
        ∃ pick : Nat, divine_fortune_outcome d pick = f)) := by
  refine ⟨?_, ?_, ?_⟩
  · intro d hd pick
    have ht : fortuneTiers d = (["平", "小吉", "中吉"], [3, 2, 1]) := by
      rw [fortuneTiers, if_pos hd]
    simp only [divine_fortune_outcome, ht]
    rw [show weightedPool ["平", "小吉", "中吉"] [3, 2, 1] =
      ["平", "平", "平", "小吉", "小吉", "中吉"] from rfl]
    have hm := getD_mod_mem ["平", "平", "平", "小吉", "小吉", "中吉"] pick ""
      (by simp)
    exact (show ∀ x ∈ (["平", "平", "平", "小吉", "小吉", "中吉"] : List String),
      x ∈ (["平", "小吉", "中吉"] : List String) from by decide) _ hm
  · intro d hd3 hd7
    have ht : fortuneTiers d =
        (["小凶", "平", "小吉", "中吉", "大吉"], [1, 2, 3, 3, 1]) := by
      rw [fortuneTiers, if_neg (by omega), if_pos hd7]
    constructor
    · intro pick
      simp only [divine_fortune_outcome, ht]
      rw [show weightedPool ["小凶", "平", "小吉", "中吉", "大吉"]
          [1, 2, 3, 3, 1] =
        ["小凶", "平", "平", "小吉", "小吉", "小吉", "中吉", "中吉", "中吉",
          "大吉"] from rfl]
      have hm := getD_mod_mem
        ["小凶", "平", "平", "小吉", "小吉", "小吉", "中吉", "中吉", "中吉",
          "大吉"] pick "" (by simp)
      exact (show ∀ x ∈ (["小凶", "平", "平", "小吉", "小吉", "小吉", "中吉",
          "中吉", "中吉", "大吉"] : List String),
        x ∈ (["小凶", "平", "小吉", "中吉", "大吉"] : List String) from
        by decide) _ hm
    · intro f hf
      simp only [List.mem_cons, List.not_mem_nil, or_false] at hf
      rcases hf with rfl | rfl | rfl | rfl | rfl
      · exact ⟨0, by simp only [divine_fortune_outcome, ht]; rfl⟩
      · exact ⟨1, by simp only [divine_fortune_outcome, ht]; rfl⟩
      · exact ⟨3, by simp only [divine_fortune_outcome, ht]; rfl⟩
      · exact ⟨6, by simp only [divine_fortune_outcome, ht]; rfl⟩
      · exact ⟨9, by simp only [divine_fortune_outcome, ht]; rfl⟩
  · intro d hd7
    have ht : fortuneTiers d =
        (["大凶", "中凶", "小凶", "平", "小吉", "中吉", "大吉"],
          [1, 1, 2, 3, 3, 2, 1]) := by
      rw [fortuneTiers, if_neg (by omega), if_neg (by omega)]
    constructor
    · intro pick
      simp only [divine_fortune_outcome, ht]
      rw [show weightedPool
          ["大凶", "中凶", "小凶", "平", "小吉", "中吉", "大吉"]
          [1, 1, 2, 3, 3, 2, 1] =
        ["大凶", "中凶", "小凶", "小凶", "平", "平", "平", "小吉", "小吉",
          "小吉", "中吉", "中吉", "大吉"] from rfl]
      have hm := getD_mod_mem
        ["大凶", "中凶", "小凶", "小凶", "平", "平", "平", "小吉", "小吉",
          "小吉", "中吉", "中吉", "大吉"] pick "" (by simp)
      exact (show ∀ x ∈ (["大凶", "中凶", "小凶", "小凶", "平", "平", "平",
          "小吉", "小吉", "小吉", "中吉", "中吉", "大吉"] : List String),
        x ∈ (["大凶", "中凶", "小凶", "平", "小吉", "中吉", "大吉"] :
          List String) from by decide) _ hm
    · intro f hf
      simp only [List.mem_cons, List.not_mem_nil, or_false] at hf
      rcases hf with rfl | rfl | rfl | rfl | rfl | rfl | rfl
      · exact ⟨0, by simp only [divine_fortune_outcome, ht]; rfl⟩
      · exact ⟨1, by simp only [divine_fortune_outcome, ht]; rfl⟩
      · exact ⟨2, by simp only [divine_fortune_outcome, ht]; rfl⟩
      · exact ⟨4, by simp only [divine_fortune_outcome, ht]; rfl⟩
      · exact ⟨7, by simp only [divine_fortune_outcome, ht]; rfl⟩
      · exact ⟨10, by simp only [divine_fortune_outcome, ht]; rfl⟩
      · exact ⟨12, by simp only [divine_fortune_outcome, ht]; rfl⟩

/-- Witness for C8: concrete draws in each insight tier. -/
theorem divine_fortune_insight_tiers_witness :
    divine_fortune_outcome 2 0 ∈ (["平", "小吉", "中吉"] : List String) ∧
    divine_fortune_outcome 5 0 ∈
      (["小凶", "平", "小吉", "中吉", "大吉"] : List String) ∧
    (∃ pick : Nat, divine_fortune_outcome 5 pick = "小凶") ∧
    (∃ pick : Nat, divine_fortune_outcome 5 pick = "大吉") ∧
    divine_fortune_outcome 9 0 ∈
      (["大凶", "中凶", "小凶", "平", "小吉", "中吉", "大吉"] : List String) ∧
    (∃ pick : Nat, divine_fortune_outcome 9 pick = "大凶") ∧
    (∃ pick : Nat, divine_fortune_outcome 9 pick = "大吉") :=
  ⟨divine_fortune_insight_tiers.1 2 (by decide) 0,
    (divine_fortune_insight_tiers.2.1 5 (by decide) (by decide)).1 0,
    (divine_fortune_insight_tiers.2.1 5 (by decide) (by decide)).2 "小凶"
      (by decide),
    (divine_fortune_insight_tiers.2.1 5 (by decide) (by decide)).2 "大吉"
      (by decide),
    (divine_fortune_insight_tiers.2.2 9 (by decide)).1 0,
    (divine_fortune_insight_tiers.2.2 9 (by decide)).2 "大凶" (by decide),
    (divine_fortune_insight_tiers.2.2 9 (by decide)).2 "大吉" (by decide)⟩

/-! ### C9: game setup -/

theorem popDraw_lengths (n : Nat) :
    ∀ (d : List GuaCard), (popDraw n d).1.length = min n d.length ∧
      (popDraw n d).2.length = d.length - n := by
  induction n with
  | zero => intro d; simp [popDraw]
  | succ n ih =>
    intro d
    rcases hL : d.getLast? with _ | c
    · have hnil : d = [] := List.getLast?_eq_none_iff.mp hL
      subst hnil
      simp [popDraw]
    · have hdne : d ≠ [] := by
        intro h
        subst h
        simp [List.getLast?] at hL
      obtain ⟨h1, h2⟩ := ih d.dropLast
      rcases hpd : popDraw n d.dropLast with ⟨cs, rest⟩
      rw [hpd] at h1 h2
      have hdl : d.dropLast.length = d.length - 1 := by
        simp [List.length_dropLast]
      have hpos : 0 < d.length := List.length_pos.mpr hdne
      constructor
      · simp only [popDraw, hL, hpd]
        simp only at h1
        simp [h1, hdl]
        omega
      · simp only [popDraw, hL, hpd]
        simp only at h2
        simp [h2, hdl]
        omega

theorem dealLoop_length (ps : List Player) :
    ∀ (deck : List GuaCard), (dealLoop ps deck).1.length = ps.length := by
  induction ps with
  | nil => intro deck; simp [dealLoop]
  | cons q ps ih =>
    intro deck
    rcases hpd : popDraw 4 deck with ⟨cards, rest⟩
    rcases hdl : dealLoop ps rest with ⟨ps', rest'⟩
    simp only [dealLoop, hpd, hdl]
    have := ih rest
    rw [hdl] at this
    simp only at this
    simp [this]

theorem dealLoop_resources (ps : List Player) :
    ∀ (deck : List GuaCard) (p : Player), p ∈ (dealLoop ps deck).1 →
      p.qi = 8 ∧ p.dao_xing = 1 ∧ p.cheng_yi = 2 := by
  induction ps with
  | nil => intro deck p hp; simp [dealLoop] at hp
  | cons q ps ih =>
    intro deck p hp
    rcases hpd : popDraw 4 deck with ⟨cards, rest⟩
    rcases hdl : dealLoop ps rest with ⟨ps', rest'⟩
    simp only [dealLoop, hpd, hdl] at hp
    rcases List.mem_cons.mp hp with rfl | hp
    · exact ⟨rfl, rfl, rfl⟩
    · have := ih rest p
      rw [hdl] at this
      exact this hp

theorem dealLoop_hands (ps : List Player) :
    ∀ (deck : List GuaCard), (∀ p0 ∈ ps, p0.hand = []) →
      4 * ps.length ≤ deck.length →
      ∀ p ∈ (dealLoop ps deck).1, p.hand.length = 4 := by
  induction ps with
  | nil => intro deck _ _ p hp; simp [dealLoop] at hp
  | cons q ps ih =>
    intro deck hh hlen p hp
    rcases hpd : popDraw 4 deck with ⟨cards, rest⟩
    rcases hdl : dealLoop ps rest with ⟨ps', rest'⟩
    simp only [dealLoop, hpd, hdl] at hp
    obtain ⟨hc, hr⟩ := popDraw_lengths 4 deck
    rw [hpd] at hc hr
    simp only at hc hr
    have hd4 : 4 ≤ deck.length := by
      simp only [List.length_cons] at hlen
      omega
    rcases List.mem_cons.mp hp with rfl | hp
    · have hq : q.hand = [] := hh q (List.mem_cons_self _ _)
      simp [hq, hc]
      omega
    · have hrest : 4 * ps.length ≤ rest.length := by
        simp only [List.length_cons] at hlen
        omega
      have := ih rest (fun p0 hp0 => hh p0 (List.mem_cons_of_mem _ hp0)) hrest p
      rw [hdl] at this
      exact this hp

/-- **C9**: `setup_game` signals a setup error iff `num_players` is
outside 1..8; for `num_players` in 1..8 it returns a state with exactly
`num_players` players, board capacity 5/6/7 for 2/3/otherwise players,
every player holding the starting resources `qi = 8`, `dao_xing = 1`,
`cheng_yi = 2`, and — whenever the shared shuffled deck holds at least
`4·num_players` cards — a dealt initial hand of 4 cards. -/
theorem setup_game_spec :
    (∀ (n : Int) (deck : List GuaCard),
      (∃ msg, setup_game n deck = .error msg) ↔ ¬ (1 ≤ n ∧ n ≤ 8)) ∧
    (∀ (n : Int) (deck : List GuaCard) (gs : GameState),
      setup_game n deck = .ok gs →
      gs.players.length = n.toNat ∧
      gs.board.base_limit = (if n = 2 then 5 else if n = 3 then 6 else 7) ∧
      (∀ p ∈ gs.players, p.qi = 8 ∧ p.dao_xing = 1 ∧ p.cheng_yi = 2) ∧
      (4 * n.toNat ≤ deck.length → ∀ p ∈ gs.players, p.hand.length = 4)) := by
  constructor
  · intro n deck
    by_cases hv : 1 ≤ n ∧ n ≤ 8
    · simp only [setup_game, if_neg (not_not_intro hv)]
      constructor
      · rintro ⟨msg, hmsg⟩
        exact absurd hmsg (by simp)
      · intro h
        exact absurd hv h
    · simp only [setup_game, if_pos hv]
      exact iff_of_true ⟨_, rfl⟩ hv
  · intro n deck gs h
    by_cases hv : 1 ≤ n ∧ n ≤ 8
    · simp only [setup_game, if_neg (not_not_intro hv)] at h
      rcases hdl : dealLoop ((List.range n.toNat).map fun i =>
          ({ name := if n > 1 then "玩家" ++ toString (i + 1) else "修行者",
             avatar := available_avatars.getD (i % available_avatars.length)
               EMPEROR_AVATAR } : Player)) deck with ⟨ps', rest'⟩
      rw [show (GameState.init ((List.range n.toNat).map fun i =>
          ({ name := if n > 1 then "玩家" ++ toString (i + 1) else "修行者",
             avatar := available_avatars.getD (i % available_avatars.length)
               EMPEROR_AVATAR } : Player))).players =
          ((List.range n.toNat).map fun i =>
          ({ name := if n > 1 then "玩家" ++ toString (i + 1) else "修行者",
             avatar := available_avatars.getD (i % available_avatars.length)
               EMPEROR_AVATAR } : Player)) from rfl, hdl] at h
      injection h with h
      subst h
      have hplen : ps'.length = n.toNat := by
        have := dealLoop_length ((List.range n.toNat).map fun i =>
          ({ name := if n > 1 then "玩家" ++ toString (i + 1) else "修行者",
             avatar := available_avatars.getD (i % available_avatars.length)
               EMPEROR_AVATAR } : Player)) deck
        rw [hdl] at this
        simpa using this
      refine ⟨by simpa using hplen, ?_, ?_, ?_⟩
      · have hblen : ((List.range n.toNat).map fun i =>
            ({ name := if n > 1 then "玩家" ++ toString (i + 1) else "修行者",
               avatar := available_avatars.getD (i % available_avatars.length)
                 EMPEROR_AVATAR } : Player)).length = n.toNat := by
          simp
        simp only [GameState.init, GameBoard.init, hblen]
        have h2 : (n.toNat = 2) ↔ (n = 2) := by omega
        have h3 : (n.toNat = 3) ↔ (n = 3) := by omega
        by_cases hn2 : n = 2
        · rw [if_pos (h2.mpr hn2), if_pos hn2]
        · by_cases hn3 : n = 3
          · rw [if_neg (fun h => hn2 (h2.mp h)), if_pos (h3.mpr hn3),
              if_neg hn2, if_pos hn3]
          · rw [if_neg (fun h => hn2 (h2.mp h)),
              if_neg (fun h => hn3 (h3.mp h)), if_neg hn2, if_neg hn3]
      · intro p hp
        have := dealLoop_resources ((List.range n.toNat).map fun i =>
          ({ name := if n > 1 then "玩家" ++ toString (i + 1) else "修行者",
             avatar := available_avatars.getD (i % available_avatars.length)
               EMPEROR_AVATAR } : Player)) deck p
        rw [hdl] at this
        exact this (by simpa using hp)
      · intro hdeck p hp
        have := dealLoop_hands ((List.range n.toNat).map fun i =>
          ({ name := if n > 1 then "玩家" ++ toString (i + 1) else "修行者",
             avatar := available_avatars.getD (i % available_avatars.length)
               EMPEROR_AVATAR } : Player)) deck
          (by
            rintro p0 hp0
            rcases List.mem_map.mp hp0 with ⟨i, _, rfl⟩
            rfl)
          (by simpa using hdeck) p
        rw [hdl] at this
        exact this (by simpa using hp)
    · simp only [setup_game, if_pos hv] at h
      cases h

/-- Witness for C9: both conjuncts at `n = 2` with the 8-card
`exDeck` (and the error side at `n = 0`). -/
theorem setup_game_spec_witness :
    ((∃ msg, setup_game 0 exDeck = .error msg) ↔ ¬ ((1:Int) ≤ 0 ∧ (0:Int) ≤ 8)) ∧
    (exSetupOut.players.length = (2 : Int).toNat ∧
      exSetupOut.board.base_limit =
        (if (2 : Int) = 2 then 5 else if (2 : Int) = 3 then 6 else 7) ∧
      (∀ p ∈ exSetupOut.players,
        p.qi = 8 ∧ p.dao_xing = 1 ∧ p.cheng_yi = 2) ∧
      (4 * (2 : Int).toNat ≤ exDeck.length →
        ∀ p ∈ exSetupOut.players, p.hand.length = 4)) :=
  ⟨setup_game_spec.1 0 exDeck,
    setup_game_spec.2 2 exDeck exSetupOut (by rfl)⟩

/-! ### C10: direct zone-claim shortcuts never overwrite a controller -/

theorem getD_mem_of_lt {α : Type} [Inhabited α] (l : List α) (n : Nat)
    (d : α) (h : n < l.length) : l.getD n d ∈ l := by
  rw [List.getD_eq_getElem l d h]
  exact l.getElem_mem h

/-- The explore target is always one of the available zones. -/
theorem exploreTarget_mem (l : List String) (oracle : ExploreOracle)
    (hne : l ≠ []) : exploreTarget l oracle ∈ l := by
  have hpos : 0 < l.length := List.length_pos.mpr hne
  rw [exploreTarget]
  split
  · exact getD_mem_of_lt l 0 "" hpos
  · rcases oracle.choice_input with _ | c
    · exact getD_mem_of_lt l _ "" (Nat.mod_lt _ hpos)
    · simp only
      split
      · rename_i hrange
        exact getD_mem_of_lt l _ "" (by omega)
      · exact getD_mem_of_lt l _ "" (Nat.mod_lt _ hpos)

/-- **C10**: each of the three direct zone-claim shortcuts — the AI
`claim:` branch, the AI-vs-AI `claim:` branch, and the explore action —
assigns a controller only to a zone whose controller is falsy; a zone
already controlled by a player with a (non-empty) name keeps exactly its
record.  (The duplicate-free-keys hypothesis is the Python `dict`
invariant of `gua_zones`.) -/
theorem claim_shortcuts_never_overwrite_controller
    (zones : List (String × ZoneData)) (zone_name player_name : String)
    (player : Player) (oracle : ExploreOracle) (z : String) (zd : ZoneData)
    (c : String) (hnd : (zones.map Prod.fst).Nodup)
    (hz : pyGet zones z = some zd) (hc : zd.controller = some c)
    (hcne : c ≠ "") :
    pyGet (handle_ai_claim zones zone_name player_name) z = some zd ∧
    pyGet (ai_vs_ai_claim zones zone_name player_name) z = some zd ∧
    pyGet (handle_explore zones player oracle).1 z = some zd := by
  have htr : pyTruthy zd.controller = true := by
    rw [hc]
    simpa [pyTruthy] using hcne
  refine ⟨?_, ?_, ?_⟩
  · simp only [handle_ai_claim]
    rcases hzn : pyGet zones zone_name with _ | zdn
    · exact hz
    · dsimp only
      by_cases heq : zone_name = z
      · subst heq
        rw [hzn] at hz
        injection hz with hz
        subst hz
        rw [if_neg (not_not_intro htr)]
        exact hzn
      · split
        · rw [pyGet_pySet_ne _ _ _ _ heq]
          exact hz
        · exact hz
  · simp only [ai_vs_ai_claim]
    rcases hzn : pyGet zones zone_name with _ | zdn
    · exact hz
    · dsimp only
      by_cases heq : zone_name = z
      · subst heq
        rw [hzn] at hz
        injection hz with hz
        subst hz
        rw [if_pos htr]
        exact hzn
      · split
        · exact hz
        · rw [pyGet_pySet_ne _ _ _ _ heq]
          exact hz
  · have hz_not_avail : z ∉
        (zones.filter fun zn => ¬ pyTruthy zn.2.controller).map
          fun zn => zn.1 := by
      intro hmem
      rcases List.mem_map.mp hmem with ⟨⟨z1, zdu⟩, hf, hz1⟩
      obtain ⟨hmk, hflt⟩ := List.mem_filter.mp hf
      simp only at hz1
      subst hz1
      have hget := pyGet_of_mem_nodup hnd hmk
      rw [hz] at hget
      injection hget with hget
      subst hget
      rw [htr] at hflt
      simp at hflt
    simp only [handle_explore]
    split
    · exact hz
    · rename_i hne
      by_cases hroll : oracle.success_roll
      · rw [if_pos hroll]
        have hmem := exploreTarget_mem
          ((zones.filter fun zn => ¬ pyTruthy zn.2.controller).map
            fun zn => zn.1) oracle hne
        rcases hpt : pyGet zones (exploreTarget
            ((zones.filter fun zn => ¬ pyTruthy zn.2.controller).map
              fun zn => zn.1) oracle) with _ | zdt
        · simp only [hpt]
          exact hz
        · simp only [hpt]
          have hne2 : exploreTarget
              ((zones.filter fun zn => ¬ pyTruthy zn.2.controller).map
                fun zn => zn.1) oracle ≠ z :=
            fun hEq => hz_not_avail (hEq ▸ hmem)
          rw [pyGet_pySet_ne _ _ _ _ hne2]
          exact hz
      · rw [if_neg hroll]
        exact hz

/-- Witness for C10 at `exZones`: 乾 is controlled by A and keeps its
record under a claim of 乾 by B, an AI-vs-AI claim of 乾 by B, and an
explore by player C that succeeds on 坤. -/
theorem claim_shortcuts_never_overwrite_controller_witness :
    pyGet (handle_ai_claim exZones "乾" "B") "乾" =
      some { markers := [], controller := some "A" } ∧
    pyGet (ai_vs_ai_claim exZones "乾" "B") "乾" =
      some { markers := [], controller := some "A" } ∧
    pyGet (handle_explore exZones exPoorPlayer
        { choice_input := some 1, rand_index := 0, success_roll := true }).1
        "乾" =
      some { markers := [], controller := some "A" } :=
  claim_shortcuts_never_overwrite_controller exZones "乾" "B" exPoorPlayer
    { choice_input := some 1, rand_index := 0, success_roll := true } "乾"
    { markers := [], controller := some "A" } "A" (by decide) (by decide)
    (by decide) (by decide)

end GamePrototype
